import Mathlib

/-!
# Muze: the post aggregate service

A shallow embedding of `internal/grpc/post_service.go` together with the parts of
`internal/cache/redis.go`, `internal/messaging/nats.go` and `internal/models/post.go`
it calls.  The relational store, the Redis cache and the NATS bus are explicit
components of a `State`; every call receives an `Env` holding what the outside world
contributes to that call: the clock readings, the identifiers the database generates
and the failures of the store, of the cache and of the bus.
-/

namespace Muze

/-! ## Data model (`internal/models/post.go`) -/

/-- An instant of `time.Time`, counted in the resolution the store keeps. -/
abbrev Time := Nat

/-- The two layouts the service renders instants with: `time.RFC3339` for the
`Timestamp` of a protobuf post and `"2006-01-02T15:04:05Z"` for bus events.  The
rendering itself belongs to the Go standard library and is a parameter here. -/
structure TimeFormat where
  RFC3339 : Time → String
  eventLayout : Time → String

/-- Row of table `posts` (`models.Post`).  `Likes` is a Go `int`: a counter that
moves by one per committed like record, modelled as an unbounded integer; the
narrowing to the 32-bit protobuf field is explicit in `convertToProtoPost`. -/
structure Post where
  ID : String
  Content : String
  AuthorID : String
  AuthorName : String
  ImageURL : Option String
  Likes : Int
  CreatedAt : Time
  UpdatedAt : Time
  DeletedAt : Option Time
  deriving DecidableEq, Repr

/-- Row of table `post_likes` (`models.PostLike`): a primary key and two `not null`
columns; the model declares no unique index over `(post_id, user_id)`. -/
structure PostLike where
  ID : String
  PostID : String
  UserID : String
  deriving DecidableEq, Repr

/-- The protobuf message `pb.Post` returned to callers. -/
structure PbPost where
  Id : String
  Content : String
  AuthorId : String
  AuthorName : String
  ImageUrl : Option String
  Likes : Int
  Timestamp : String
  deriving DecidableEq, Repr

/-- Request message `pb.CreatePostRequest`. -/
structure CreatePostRequest where
  Content : String
  AuthorId : String
  ImageUrl : Option String
  deriving DecidableEq, Repr

/-- Request message `pb.LikePostRequest`. -/
structure LikePostRequest where
  PostId : String
  UserId : String
  deriving DecidableEq, Repr

/-- Request message `pb.GetPostByIdRequest`. -/
structure GetPostByIdRequest where
  Id : String
  deriving DecidableEq, Repr

/-- Request message `pb.GetPostsRequest`; both fields are `int32`. -/
structure GetPostsRequest where
  Limit : Int
  Offset : Int
  deriving DecidableEq, Repr

/-- Response message `pb.GetPostsResponse`. -/
structure GetPostsResponse where
  Posts : List PbPost
  Total : Int
  deriving DecidableEq, Repr

/-- The gRPC status codes the service uses. -/
inductive Code where
  | InvalidArgument
  | NotFound
  | AlreadyExists
  | Internal
  deriving DecidableEq, Repr

/-- A gRPC error status: `status.Errorf(code, message)`. -/
structure Status where
  code : Code
  message : String
  deriving DecidableEq, Repr

/-! ## The environment of one call -/

/-- An error value handed back by gorm. -/
inductive DbError where
  | ErrRecordNotFound
  | uniqueViolation (msg : String)
  | failure (msg : String)
  deriving DecidableEq, Repr

/-- The text of an error, as `%v` prints it. -/
def DbError.Error : DbError → String
  | .ErrRecordNotFound => "record not found"
  | .uniqueViolation msg => msg
  | .failure msg => msg

/-- The store statements issued by the service, one name per call site. -/
inductive DbOp where
  | likeLookup
  | begin
  | createLike
  | firstPost
  | savePost
  | commit
  | createPost
  | getById
  | count
  | find
  deriving DecidableEq, Repr

/-- The Redis commands issued by `internal/cache/redis.go`. -/
inductive RedisOp where
  | getRecent
  | setRecent
  | getPost
  | setPost
  | delPost
  | delRecent
  deriving DecidableEq, Repr

/-- What the outside world contributes to one call: the readings of `time.Now()`,
the values `gen_random_uuid()` draws for a new post and a new like, and which store
statements, cache commands and bus publications fail during the call. -/
structure Env where
  now : Time
  now2 : Time
  postUUID : Nat
  likeUUID : Nat
  dbFault : DbOp → Option DbError
  redisFault : RedisOp → Bool
  natsFault : Bool

/-- An environment in which nothing fails. -/
def Env.healthy (now postUUID likeUUID : Nat) : Env :=
  { now := now, now2 := now, postUUID := postUUID, likeUUID := likeUUID,
    dbFault := fun _ => none, redisFault := fun _ => false, natsFault := false }

/-! ## Identifiers: columns of type `uuid` with default `gen_random_uuid()` -/

/-- One lower-case hexadecimal digit. -/
def hexDigit (n : Nat) : Char :=
  if n % 16 < 10 then Char.ofNat (48 + n % 16) else Char.ofNat (87 + n % 16)

/-- The lowest `k` hexadecimal digits of `v`, most significant first. -/
def hexField : Nat → Nat → List Char
  | 0, _ => []
  | k + 1, v => hexField k (v / 16) ++ [hexDigit v]

/-- The text the database returns for a 128-bit `uuid` value: the 8-4-4-4-12 form. -/
def uuidText (v : Nat) : String :=
  String.mk (hexField 8 (v / 2 ^ 96) ++ '-' :: hexField 4 (v / 2 ^ 80) ++ '-' ::
    hexField 4 (v / 2 ^ 64) ++ '-' :: hexField 4 (v / 2 ^ 48) ++ '-' :: hexField 12 v)

/-! ## The store (gorm over PostgreSQL) -/

/-- The two tables the service touches. -/
structure Store where
  posts : List Post
  likes : List PostLike
  deriving DecidableEq, Repr

/-- The store with both tables empty. -/
def Store.empty : Store := { posts := [], likes := [] }

/-- Result of `Where("post_id = ? AND user_id = ?", postId, userId).First(&like)`. -/
def Store.firstLike (db : Store) (postId userId : String) : Option PostLike :=
  db.likes.find? (fun l => decide (l.PostID = postId ∧ l.UserID = userId))

/-- Result of `Where("id = ?", id).First(&post)`: gorm leaves soft-deleted rows out. -/
def Store.firstPost (db : Store) (id : String) : Option Post :=
  db.posts.find? (fun p => decide (p.ID = id ∧ p.DeletedAt = none))

/-- Row insertion into `post_likes`; the primary key is the only unique column. -/
def Store.createLike (db : Store) (like : PostLike) : Except DbError Store :=
  if like.ID ∈ db.likes.map PostLike.ID then
    .error (.uniqueViolation "duplicate key value violates unique constraint post_likes_pkey")
  else .ok { db with likes := db.likes ++ [like] }

/-- Row insertion into `posts` for a struct whose `ID` is empty: the column default
draws the identifier, and the row comes back with it filled in. -/
def Store.createPost (db : Store) (uuid : Nat) (post : Post) : Except DbError (Post × Store) :=
  let row : Post := { post with ID := uuidText uuid }
  if row.ID ∈ db.posts.map Post.ID then
    .error (.uniqueViolation "duplicate key value violates unique constraint posts_pkey")
  else .ok (row, { db with posts := db.posts ++ [row] })

/-- Effect of `Save(&post)` on a struct with a primary key: every column of the live
row with that key is overwritten. -/
def Store.savePost (db : Store) (post : Post) : Store :=
  let rows := db.posts.map (fun q => if q.ID = post.ID ∧ q.DeletedAt = none then post else q)
  { db with posts := rows }

/-- The live rows of `posts`, as `Model(&models.Post{})` queries see them. -/
def Store.livePosts (db : Store) : List Post :=
  db.posts.filter (fun p => decide (p.DeletedAt = none))

/-- Rows in `ORDER BY created_at DESC` order; rows with equal instants keep their
table order. -/
def orderByCreatedAtDesc (rows : List Post) : List Post :=
  rows.insertionSort (fun a b => b.CreatedAt ≤ a.CreatedAt)

/-! ## The cache (`internal/cache/redis.go`) -/

/-- The Redis keyspace the service uses: key `recent_posts` and the keys `post:<id>`,
kept apart because no identifier makes the two collide.  A value is the JSON text of
the model value; decoding the text written by `json.Marshal` gives the value back.  The
five-minute time-to-live is left out: no entry expires between two calls. -/
structure Cache where
  recent : Option (List Post)
  post : List (String × Post)
  deriving DecidableEq, Repr

/-- The cache with no key set. -/
def Cache.empty : Cache := { recent := none, post := [] }

/-- Model of `cache.CacheRecentPosts`: `SET recent_posts`; an error leaves the cache as it was. -/
def CacheRecentPosts (env : Env) (c : Cache) (posts : List Post) : Cache :=
  if env.redisFault .setRecent then c else { c with recent := some posts }

/-- Model of `cache.GetRecentPosts`: `none` stands for a returned error (command failure or
missing key). -/
def GetRecentPosts (env : Env) (c : Cache) : Option (List Post) :=
  if env.redisFault .getRecent then none else c.recent

/-- Model of `cache.CachePost`: `SET post:<id>`. -/
def CachePost (env : Env) (c : Cache) (post : Post) : Cache :=
  if env.redisFault .setPost then c
  else { c with post := (post.ID, post) :: c.post.filter (fun kv => decide (kv.1 ≠ post.ID)) }

/-- Model of `cache.GetCachedPost`: `none` stands for a returned error. -/
def GetCachedPost (env : Env) (c : Cache) (postID : String) : Option Post :=
  if env.redisFault .getPost then none else c.post.lookup postID

/-- Model of `cache.InvalidatePostCache`: `DEL post:<id>`, then `DEL recent_posts`; a failure of
the first command returns before the second is sent. -/
def InvalidatePostCache (env : Env) (c : Cache) (postID : String) : Cache :=
  if env.redisFault .delPost then c
  else
    let c1 : Cache := { c with post := c.post.filter (fun kv => decide (kv.1 ≠ postID)) }
    if env.redisFault .delRecent then c1 else { c1 with recent := none }

/-! ## The event bus (`internal/messaging/nats.go`) -/

/-- A message on the bus: its subject and its payload. -/
inductive Event where
  | PostCreatedEvent (PostID Content AuthorID AuthorName : String) (ImageURL : Option String)
      (Likes : Int) (Timestamp : String)
  | PostLikedEvent (PostID UserID : String) (Likes : Int) (Timestamp : String)
  deriving DecidableEq, Repr

/-- Model of `messaging.PublishPostCreated`: publishes on `post.created` unless the bus fails. -/
def PublishPostCreated (tf : TimeFormat) (env : Env) (bus : List Event) (post : Post) :
    List Event :=
  if env.natsFault then bus
  else bus ++ [.PostCreatedEvent post.ID post.Content post.AuthorID post.AuthorName
    post.ImageURL post.Likes (tf.eventLayout post.CreatedAt)]

/-- Model of `messaging.PublishPostLiked`: publishes on `post.liked` unless the bus fails. -/
def PublishPostLiked (tf : TimeFormat) (env : Env) (bus : List Event) (post : Post)
    (userID : String) : List Event :=
  if env.natsFault then bus
  else bus ++ [.PostLikedEvent post.ID userID post.Likes (tf.eventLayout post.UpdatedAt)]

/-! ## The service (`internal/grpc/post_service.go`) -/

/-- Everything the service reads and writes. -/
structure State where
  db : Store
  redis : Cache
  nats : List Event
  deriving DecidableEq, Repr

/-- The Go conversion `int32(n)` of a wider integer: wrap-around into 32 bits. -/
def int32 (n : Int) : Int :=
  (n + 2147483648) % 4294967296 - 2147483648

/-- Model of `convertToProtoPost`. -/
def convertToProtoPost (tf : TimeFormat) (post : Post) : PbPost :=
  { Id := post.ID
    Content := post.Content
    AuthorId := post.AuthorID
    AuthorName := post.AuthorName
    ImageUrl := post.ImageURL
    Likes := int32 post.Likes
    Timestamp := tf.RFC3339 post.CreatedAt }

/-- Outcome of the first statement of `LikePost`: `true` when `First(&existingLike)`
returns a nil error, that is when the statement runs and a row matches. -/
def existingLikeFound (env : Env) (db : Store) (req : LikePostRequest) : Bool :=
  match env.dbFault .likeLookup with
  | some _ => false
  | none => (db.firstLike req.PostId req.UserId).isSome

/-- Outcome of `tx.Create(&like)`.  A failed `Begin()` leaves its error in `tx`, and the
first statement run on `tx` reports it. -/
def txCreateLike (env : Env) (db : Store) (like : PostLike) : Except DbError Store :=
  match env.dbFault .begin with
  | some e => .error e
  | none =>
    match env.dbFault .createLike with
    | some e => .error e
    | none => db.createLike like

/-- Outcome of `tx.Where("id = ?", id).First(&post)` inside the transaction. -/
def txFirstPost (env : Env) (db : Store) (id : String) : Except DbError Post :=
  match env.dbFault .firstPost with
  | some e => .error e
  | none =>
    match db.firstPost id with
    | some post => .ok post
    | none => .error .ErrRecordNotFound

/-- Outcome of `tx.Save(&post)`. -/
def txSavePost (env : Env) (db : Store) (post : Post) : Except DbError Store :=
  match env.dbFault .savePost with
  | some e => .error e
  | none => .ok (db.savePost post)

/-- Model of `PostServer.LikePost`.  Every exit before the commit hands back the store as it was
when the call began: the transaction is rolled back, or was never started. -/
def LikePost (tf : TimeFormat) (s : State) (req : LikePostRequest) (env : Env) :
    Except Status PbPost × State :=
  -- Check if user already liked the post
  if existingLikeFound env s.db req then
    (.error ⟨.AlreadyExists, "user already liked this post"⟩, s)
  else
    -- Create like record
    let like : PostLike :=
      { ID := uuidText env.likeUUID, PostID := req.PostId, UserID := req.UserId }
    match txCreateLike env s.db like with
    | .error e => (.error ⟨.Internal, "failed to create like: " ++ e.Error⟩, s)
    | .ok tx1 =>
      -- Update post likes count
      match txFirstPost env tx1 req.PostId with
      | .error _ => (.error ⟨.NotFound, "post not found"⟩, s)
      | .ok found =>
        let post : Post := { found with Likes := found.Likes + 1, UpdatedAt := env.now }
        match txSavePost env tx1 post with
        | .error e => (.error ⟨.Internal, "failed to update post: " ++ e.Error⟩, s)
        | .ok tx2 =>
          -- Commit transaction
          match env.dbFault .commit with
          | some e => (.error ⟨.Internal, "failed to commit transaction: " ++ e.Error⟩, s)
          | none =>
            -- Invalidate cache, publish to NATS
            let redis := InvalidatePostCache env s.redis req.PostId
            let nats := PublishPostLiked tf env s.nats post req.UserId
            (.ok (convertToProtoPost tf post), { db := tx2, redis := redis, nats := nats })

/-- Outcome of `s.db.Create(&post)` in `CreatePost`. -/
def dbCreatePost (env : Env) (db : Store) (post : Post) : Except DbError (Post × Store) :=
  match env.dbFault .createPost with
  | some e => .error e
  | none => db.createPost env.postUUID post

/-- The `models.Post` literal built by `CreatePost`; `ID` is left at its zero value. -/
def newPost (req : CreatePostRequest) (env : Env) : Post :=
  -- Convert ImageUrl from protobuf to Go model
  let modelImageURL : Option String := req.ImageUrl
  { ID := ""
    Content := req.Content
    AuthorID := req.AuthorId
    AuthorName := "User " ++ req.AuthorId
    ImageURL := modelImageURL
    Likes := 0
    CreatedAt := env.now
    UpdatedAt := env.now2
    DeletedAt := none }

/-- Model of `PostServer.CreatePost`. -/
def CreatePost (tf : TimeFormat) (s : State) (req : CreatePostRequest) (env : Env) :
    Except Status PbPost × State :=
  -- Validate input
  if req.Content = "" then
    (.error ⟨.InvalidArgument, "content cannot be empty"⟩, s)
  else
    match dbCreatePost env s.db (newPost req env) with
    | .error e => (.error ⟨.Internal, "failed to create post: " ++ e.Error⟩, s)
    | .ok (post, db) =>
      -- Cache the post, publish to NATS
      let redis := CachePost env s.redis post
      let nats := PublishPostCreated tf env s.nats post
      (.ok (convertToProtoPost tf post), { db := db, redis := redis, nats := nats })

/-- Outcome of `s.db.Where("id = ?", id).First(&post)` in `GetPostById`. -/
def dbGetById (env : Env) (db : Store) (id : String) : Except DbError Post :=
  match env.dbFault .getById with
  | some e => .error e
  | none =>
    match db.firstPost id with
    | some post => .ok post
    | none => .error .ErrRecordNotFound

/-- Model of `PostServer.GetPostById`. -/
def GetPostById (tf : TimeFormat) (s : State) (req : GetPostByIdRequest) (env : Env) :
    Except Status PbPost × State :=
  -- Try cache first
  match GetCachedPost env s.redis req.Id with
  | some cachedPost => (.ok (convertToProtoPost tf cachedPost), s)
  | none =>
    -- If not in cache, get from database
    match dbGetById env s.db req.Id with
    | .error e =>
      if e = .ErrRecordNotFound then (.error ⟨.NotFound, "post not found"⟩, s)
      else (.error ⟨.Internal, "failed to get post: " ++ e.Error⟩, s)
    | .ok post =>
      (.ok (convertToProtoPost tf post), { s with redis := CachePost env s.redis post })

/-- Outcome of `query.Count(&total)`: the value left in `total`, and the error left in `query`.
The code does not look at the error where `Count` is called, and a failed count leaves in
`total` the zero the variable started with; the error stays in `query`, the `*gorm.DB` value
the `Find` chain is built on. -/
def dbCount (env : Env) (db : Store) : Int × Option DbError :=
  match env.dbFault .count with
  | some e => (0, some e)
  | none => ((db.livePosts.length : Int), none)

/-- Outcome of the `Limit`, `Offset`, `Order("created_at DESC")`, `Find(&posts)` chain on `query`,
where `queryError` is the error `query` carries when the chain starts.  With an error in
`query`, `Find` runs no statement, leaves `posts` empty and reports that error. -/
def dbFind (env : Env) (db : Store) (req : GetPostsRequest) (queryError : Option DbError) :
    Except DbError (List Post) :=
  match queryError with
  | some e => .error e
  | none =>
    match env.dbFault .find with
    | some e => .error e
    | none =>
      let ordered := orderByCreatedAtDesc db.livePosts
      let skipped := if req.Offset > 0 then ordered.drop req.Offset.toNat else ordered
      .ok (if req.Limit > 0 then skipped.take req.Limit.toNat else skipped)

/-- The store path of `PostServer.GetPosts` (from "If not in cache, get from database" on). -/
def GetPostsFromStore (tf : TimeFormat) (s : State) (req : GetPostsRequest) (env : Env) :
    Except Status GetPostsResponse × State :=
  let total := (dbCount env s.db).1
  let queryError := (dbCount env s.db).2
  match dbFind env s.db req queryError with
  | .error e => (.error ⟨.Internal, "failed to get posts: " ++ e.Error⟩, s)
  | .ok posts =>
    -- Cache the results (exactly 10 most recent posts)
    let redis :=
      if 0 < posts.length then
        let cachePosts := if 10 < posts.length then posts.take 10 else posts
        CacheRecentPosts env s.redis cachePosts
      else s.redis
    (.ok { Posts := posts.map (convertToProtoPost tf), Total := int32 total },
      { s with redis := redis })

/-- Model of `PostServer.GetPosts`. -/
def GetPosts (tf : TimeFormat) (s : State) (req : GetPostsRequest) (env : Env) :
    Except Status GetPostsResponse × State :=
  -- Try cache first
  match GetRecentPosts env s.redis with
  | some cachedPosts =>
    if 0 < cachedPosts.length then
      let pbPosts := cachedPosts.map (convertToProtoPost tf)
      (.ok { Posts := pbPosts, Total := int32 pbPosts.length }, s)
    else GetPostsFromStore tf s req env
  | none => GetPostsFromStore tf s req env

/-! ## Sequences of calls -/

/-- One request to the service. -/
inductive Call where
  | CreatePost (req : CreatePostRequest)
  | GetPosts (req : GetPostsRequest)
  | GetPostById (req : GetPostByIdRequest)
  | LikePost (req : LikePostRequest)
  deriving DecidableEq, Repr

/-- The state a call leaves behind. -/
def step (tf : TimeFormat) (s : State) (call : Call) (env : Env) : State :=
  match call with
  | .CreatePost req => (CreatePost tf s req env).2
  | .GetPosts req => (GetPosts tf s req env).2
  | .GetPostById req => (GetPostById tf s req env).2
  | .LikePost req => (LikePost tf s req env).2

/-- States reached from `s0` by calls handled one after the other, each in an environment
that `allowed` accepts. -/
inductive ReachableFrom (tf : TimeFormat) (allowed : Env → Prop) (s0 : State) : State → Prop where
  | start : ReachableFrom tf allowed s0 s0
  | call {s : State} (c : Call) (env : Env) :
      ReachableFrom tf allowed s0 s → allowed env → ReachableFrom tf allowed s0 (step tf s c env)

/-- States reached from an empty store, whatever the cache and the bus hold at the start. -/
def Reachable (tf : TimeFormat) (allowed : Env → Prop) (s : State) : Prop :=
  ∃ s0 : State, s0.db = Store.empty ∧ ReachableFrom tf allowed s0 s

/-- Every environment: any store statement, cache command or publication may fail. -/
def anyEnv : Env → Prop := fun _ => True

/-- The row `LikePost` writes back for the row it found: `post.Likes++`, then
`post.UpdatedAt = time.Now()`. -/
def likedRow (found : Post) (env : Env) : Post :=
  { found with Likes := found.Likes + 1, UpdatedAt := env.now }

/-- The like record `LikePost` inserts, with the key the database draws for it. -/
def likeRecord (req : LikePostRequest) (env : Env) : PostLike :=
  { ID := uuidText env.likeUUID, PostID := req.PostId, UserID := req.UserId }

/-- The store runs every statement of the call it is asked to run. -/
def Env.storeUp (env : Env) : Prop := ∀ op : DbOp, env.dbFault op = none

/-- The primary key of table `posts`: no two rows carry the same `ID`. -/
abbrev Store.postsKey (db : Store) : Prop := (db.posts.map Post.ID).Nodup

/-- The like count a call handed back, when it handed back a post. -/
def returnedLikes (r : Except Status PbPost) : Option Int :=
  match r with
  | .ok post => some post.Likes
  | .error _ => none

/-- The status code a call handed back, when it handed back an error. -/
def returnedCode (r : Except Status PbPost) : Option Code :=
  match r with
  | .ok _ => none
  | .error st => some st.code

/-- A concrete rendering of instants, used where a statement is evaluated. -/
def plainFormat : TimeFormat :=
  { RFC3339 := fun t => toString t, eventLayout := fun t => toString t }

/-- A post whose like counter stands at the largest value of a 32-bit field. -/
def fullPost : Post :=
  { ID := uuidText 1, Content := "hello", AuthorID := "u1", AuthorName := "User u1",
    ImageURL := none, Likes := 2147483647, CreatedAt := 10, UpdatedAt := 10, DeletedAt := none }

/-- A state holding `fullPost` and no like record. -/
def fullState : State :=
  { db := { posts := [fullPost], likes := [] }, redis := Cache.empty, nats := [] }

/-- A state holding `fullPost` and one like record for it, by user `u2`. -/
def fullStateLiked : State :=
  { db := { posts := [fullPost], likes := [{ ID := uuidText 2, PostID := uuidText 1, UserID := "u2" }] },
    redis := Cache.empty, nats := [] }

/-- A fresh post with no like yet. -/
def helloPost : Post :=
  { ID := uuidText 1, Content := "hello", AuthorID := "u1", AuthorName := "User u1",
    ImageURL := none, Likes := 0, CreatedAt := 10, UpdatedAt := 10, DeletedAt := none }

/-- A state holding `helloPost`, cached, and no like record. -/
def helloState : State :=
  { db := { posts := [helloPost], likes := [] },
    redis := { recent := some [helloPost], post := [(uuidText 1, helloPost)] }, nats := [] }

/-- A state holding `helloPost` with one like, by user `u2`. -/
def helloStateLiked : State :=
  { db := { posts := [{ helloPost with Likes := 1 }],
            likes := [{ ID := uuidText 2, PostID := uuidText 1, UserID := "u2" }] },
    redis := { recent := some [helloPost], post := [(uuidText 1, helloPost)] }, nats := [] }

/-- An environment in which the insert of the like record is refused as a duplicate and
nothing else fails. -/
def raceLostEnv : Env :=
  { Env.healthy 11 0 3 with
    dbFault := fun op => if op = DbOp.createLike then
      some (.uniqueViolation "duplicate key value violates unique constraint (SQLSTATE 23505)")
      else none }


/-- The number of like records whose post id is `id`. -/
def Store.likeCount (db : Store) (id : String) : Nat :=
  db.likes.countP (fun l => decide (l.PostID = id))

/-- Every like record points at a row of `posts`. -/
def Store.likesPointAtPosts (db : Store) : Prop :=
  ∀ l ∈ db.likes, l.PostID ∈ db.posts.map Post.ID

/-- Every row of `posts` carries as like count the number of like records pointing at it. -/
def Store.countsAgree (db : Store) : Prop :=
  ∀ p ∈ db.posts, p.Likes = (db.likeCount p.ID : Int)

/-- What the store keeps true along sequential calls. -/
def Store.consistent (db : Store) : Prop :=
  db.postsKey ∧ db.likesPointAtPosts ∧ db.countsAgree

/-- The scenario of the specification: a post is created, liked by `u2`, liked by `u2` again
and liked by `u3`, each call in a healthy environment. -/
def scenarioState : State :=
  step plainFormat
    (step plainFormat
      (step plainFormat
        (step plainFormat { db := Store.empty, redis := Cache.empty, nats := [] }
          (.CreatePost ⟨"hello", "u1", none⟩) (Env.healthy 10 1 0))
        (.LikePost ⟨uuidText 1, "u2"⟩) (Env.healthy 11 0 2))
      (.LikePost ⟨uuidText 1, "u2"⟩) (Env.healthy 12 0 3))
    (.LikePost ⟨uuidText 1, "u3"⟩) (Env.healthy 13 0 4)


/-- The posts a `GetPosts` call handed back, when it handed back a page. -/
def returnedPosts (r : Except Status GetPostsResponse) : Option (List PbPost) :=
  match r with
  | .ok resp => some resp.Posts
  | .error _ => none

/-- The total a `GetPosts` call handed back, when it handed back a page. -/
def returnedTotal (r : Except Status GetPostsResponse) : Option Int :=
  match r with
  | .ok resp => some resp.Total
  | .error _ => none

/-- The older of two posts. -/
def olderPost : Post :=
  { ID := uuidText 1, Content := "first", AuthorID := "u1", AuthorName := "User u1",
    ImageURL := none, Likes := 0, CreatedAt := 10, UpdatedAt := 10, DeletedAt := none }

/-- The newer of two posts. -/
def newerPost : Post :=
  { ID := uuidText 2, Content := "second", AuthorID := "u1", AuthorName := "User u1",
    ImageURL := none, Likes := 0, CreatedAt := 20, UpdatedAt := 20, DeletedAt := none }

/-- A state holding `olderPost` and `newerPost`, no like record and nothing cached. -/
def twoPostsState : State :=
  { db := { posts := [olderPost, newerPost], likes := [] }, redis := Cache.empty, nats := [] }

/-- The state after `CreatePost` calls handled one after the other, when every one of them
succeeded; `none` when one of them failed. -/
def createAll (tf : TimeFormat) (s : State) : List (CreatePostRequest × Env) → Option State
  | [] => some s
  | (req, env) :: rest =>
    match CreatePost tf s req env with
    | (.ok _, s1) => createAll tf s1 rest
    | (.error _, _) => none

/-- A table of `n` posts with identifiers and creation instants `0`, ..., `n - 1`. -/
def manyPosts (n : Nat) : List Post :=
  (List.range n).map (fun i => { helloPost with ID := uuidText i, CreatedAt := i })

/-- A state holding `manyPosts n`, no like record and nothing cached. -/
def manyPostsState (n : Nat) : State :=
  { db := { posts := manyPosts n, likes := [] }, redis := Cache.empty, nats := [] }

/-- The two creates of `TestPostService_GetPosts`, each in a healthy environment. -/
def testCreates : List (CreatePostRequest × Env) :=
  [(⟨"First test post", "user1", none⟩, Env.healthy 10 1 0),
   (⟨"Second test post", "user2", none⟩, Env.healthy 20 2 0)]

/-- The state `testCreates` leave when run from an empty store and an empty cache. -/
def afterTestCreates : State :=
  (createAll plainFormat { db := Store.empty, redis := Cache.empty, nats := [] } testCreates).getD
    { db := Store.empty, redis := Cache.empty, nats := [] }

/-- Environments in which both `DEL` commands of `InvalidatePostCache` go through; every other
command, statement or publication may fail. -/
def invalidationWorks : Env → Prop :=
  fun env => env.redisFault .delPost = false ∧ env.redisFault .delRecent = false

/-- What the recent-posts entry is, whenever it exists: a non-empty list of at most ten live rows
of the store, as the store holds them now, newest first. -/
def State.recentHoldsRows (s : State) : Prop :=
  ∀ cached : List Post, s.redis.recent = some cached →
    cached ≠ [] ∧ cached.length ≤ 10 ∧ (∀ p ∈ cached, p ∈ s.db.livePosts) ∧
    cached.Sorted (fun a b => b.CreatedAt ≤ a.CreatedAt)

/-- The state after a post is created, the posts are listed, and a second post is created, from
an empty store and an empty cache with nothing failing: the list cached by the second call is
still there after the third. -/
def staleListState : State :=
  step plainFormat
    (step plainFormat
      (step plainFormat { db := Store.empty, redis := Cache.empty, nats := [] }
        (.CreatePost ⟨"first", "u1", none⟩) (Env.healthy 10 1 0))
      (.GetPosts ⟨10, 0⟩) (Env.healthy 15 0 0))
    (.CreatePost ⟨"second", "u1", none⟩) (Env.healthy 20 2 0)

/-! ## The gateway (`cmd/graphql/main.go`) -/

/-- Position of the first occurrence of `substr` in `s`, both as lists of characters. -/
def indexOfChars (substr : List Char) : List Char → Option Nat
  | [] => if substr.isPrefixOf [] then some 0 else none
  | c :: rest =>
    if substr.isPrefixOf (c :: rest) then some 0
    else (indexOfChars substr rest).map (fun i => i + 1)

/-- The Go function `strings.Index`: position of the first occurrence, or -1.  Positions count
characters; every text the gateway searches for is ASCII, so a slice cut at such positions is
the slice Go cuts at the byte offsets. -/
def strings.Index (s substr : String) : Int :=
  match indexOfChars substr.data s.data with
  | some i => (i : Int)
  | none => -1

/-- The Go function `strings.Contains`. -/
def strings.Contains (s substr : String) : Bool :=
  decide (0 ≤ strings.Index s substr)

/-- The Go function `unicode.ToLower` on every character whose lower case is an ASCII character:
the ASCII capitals, U+0130 (capital I with dot above), which Go lowers to `i`, and U+212A (the
Kelvin sign), which Go lowers to `k`.  A character whose lower case lies outside ASCII is left
as it is, which changes no answer to the question whether a text contains an ASCII word. -/
def unicodeToLower (c : Char) : Char :=
  if c = Char.ofNat 0x130 then 'i'
  else if c = Char.ofNat 0x212A then 'k'
  else Char.toLower c

/-- The Go function `strings.ToLower`: `unicode.ToLower` character by character. -/
def strings.ToLower (s : String) : String :=
  String.mk (s.data.map unicodeToLower)

/-- The Go function `strings.HasPrefix`. -/
def strings.HasPrefix (s pre : String) : Bool :=
  pre.data.isPrefixOf s.data

/-- The Go function `strings.TrimPrefix`. -/
def strings.TrimPrefix (s pre : String) : String :=
  if strings.HasPrefix s pre then String.mk (s.data.drop pre.data.length) else s

/-- The Go slice expression `s[start:]`. -/
def sliceFrom (s : String) (start : Nat) : String :=
  String.mk (s.data.drop start)

/-- The Go slice expression `s[start : start+len]`. -/
def sliceLen (s : String) (start len : Nat) : String :=
  String.mk ((s.data.drop start).take len)

/-- The one-character text holding the double-quote character. -/
def quoteText : String := String.singleton (Char.ofNat 34)

/-- A value of the decoded `variables` object, as far as the gateway tells values apart: a JSON
string, a JSON number `l` (kept as the value of the conversion `int32(l)`), anything else. -/
inductive JsonValue where
  | string (s : String)
  | number (asInt32 : Int)
  | other
  deriving DecidableEq, Repr

/-- The decoded body of a request to `/query`; `operationName` is not used by the handler. -/
structure GraphQLRequest where
  Query : String
  Variables : List (String × JsonValue)
  deriving DecidableEq, Repr

/-- What the `/query` handler reads of an HTTP request: the method, the `Authorization` header
(empty when absent) and the body, `none` when it does not decode as JSON. -/
structure HttpRequest where
  Method : String
  Authorization : String
  Body : Option GraphQLRequest
  deriving DecidableEq, Repr

/-- The request context, as far as the gateway uses it: the value stored under
`userContextKey`, if one was stored. -/
structure Ctx where
  user : Option String
  deriving DecidableEq, Repr

/-- Model of `getUserIDFromContext`. -/
def getUserIDFromContext (ctx : Ctx) : String :=
  match ctx.user with
  | some userID => userID
  | none => ""

/-- Model of `validateJWT`. -/
def validateJWT (token : String) : String :=
  if strings.Contains token "test-signature-for-development" then "test-user" else ""

/-- The map built by `convertProtoPostToGraphQL`. -/
structure GraphQLPost where
  id : String
  content : String
  authorName : String
  likes : Int
  timestamp : String
  imageUrl : Option String
  deriving DecidableEq, Repr

/-- Model of `convertProtoPostToGraphQL`. -/
def convertProtoPostToGraphQL (post : PbPost) : GraphQLPost :=
  { id := post.Id
    content := post.Content
    authorName := post.AuthorName
    likes := post.Likes
    timestamp := post.Timestamp
    imageUrl := post.ImageUrl }

/-- The `data` object of a successful reply. -/
inductive GraphQLData where
  | getPosts (posts : List GraphQLPost)
  | createPost (post : GraphQLPost)
  | likePost (post : GraphQLPost)
  deriving DecidableEq, Repr

/-- The text of a gRPC status error, as `%v` prints it. -/
def Status.Error (st : Status) : String :=
  "rpc error: code = " ++ (match st.code with
    | .InvalidArgument => "InvalidArgument"
    | .NotFound => "NotFound"
    | .AlreadyExists => "AlreadyExists"
    | .Internal => "Internal") ++ " desc = " ++ st.message

/-- The argument extraction that `executeGraphQLQuery` spells out twice, for `content` (offset
8) and for `postId` (offset 7): the string entry of `variables` named `key`, and when that is
missing or empty, the text of the query from just after the first `key:` up to the next
double quote. -/
def argumentOf (query : String) (vars : List (String × JsonValue)) (key : String) :
    String :=
  let fromVars : String :=
    match vars.lookup key with
    | some (.string c) => c
    | _ => ""
  if fromVars = "" then
    -- Extract the argument from the query string
    if strings.Contains query (key ++ ":") then
      let start := (strings.Index query (key ++ ":")).toNat + (key ++ ":").length
      let stop := strings.Index (sliceFrom query start) quoteText
      if stop ≠ -1 then sliceLen query start stop.toNat else fromVars
    else fromVars
  else fromVars

/-- The first half of `executeGraphQLQuery`: the request it sends to the service, or the error it
returns without calling the service. -/
def requestOf (ctx : Ctx) (query : String) (vars : List (String × JsonValue)) :
    Except String Call :=
  -- Handle GetPosts query (no auth required)
  if strings.Contains query "getPosts" then
    let limit : Int :=
      match vars.lookup "limit" with
      | some (.number l) => l
      | _ => 10
    .ok (.GetPosts { Limit := limit, Offset := 0 })
  -- Handle CreatePost mutation (auth required)
  else if strings.Contains query "createPost" then
    let content := argumentOf query vars "content"
    if content = "" then .error "content is required"
    else
      let userID := getUserIDFromContext ctx
      let userID := if userID = "" then "default-user" else userID
      .ok (.CreatePost { Content := content, AuthorId := userID, ImageUrl := none })
  -- Handle LikePost mutation (auth required)
  else if strings.Contains query "likePost" then
    let postID := argumentOf query vars "postId"
    if postID = "" then .error "postId is required"
    else
      let userID := getUserIDFromContext ctx
      let userID := if userID = "" then "default-user" else userID
      .ok (.LikePost { PostId := postID, UserId := userID })
  else .error ("unsupported query: " ++ query)

/-- Model of `executeGraphQLQuery`, with the service in the place of the gRPC client.  The
gateway has no branch that calls `GetPostById`, and `requestOf` never yields such a request. -/
def executeGraphQLQuery (tf : TimeFormat) (s : State) (ctx : Ctx) (query : String)
    (vars : List (String × JsonValue)) (env : Env) : Except String GraphQLData × State :=
  match requestOf ctx query vars with
  | .error msg => (.error msg, s)
  | .ok (.GetPosts req) =>
    match GetPosts tf s req env with
    | (.error st, s1) => (.error ("failed to get posts: " ++ st.Error), s1)
    | (.ok resp, s1) => (.ok (.getPosts (resp.Posts.map convertProtoPostToGraphQL)), s1)
  | .ok (.CreatePost req) =>
    match CreatePost tf s req env with
    | (.error st, s1) => (.error ("failed to create post: " ++ st.Error), s1)
    | (.ok resp, s1) => (.ok (.createPost (convertProtoPostToGraphQL resp)), s1)
  | .ok (.LikePost req) =>
    match LikePost tf s req env with
    | (.error st, s1) => (.error ("failed to like post: " ++ st.Error), s1)
    | (.ok resp, s1) => (.ok (.likePost (convertProtoPostToGraphQL resp)), s1)
  | .ok (.GetPostById _) => (.error ("unsupported query: " ++ query), s)

/-- A reply of the `/query` handler: a plain-text error of `http.Error`, a JSON `errors` object
with its status, or the JSON result with status 200. -/
inductive HttpResponse where
  | plain (status : Nat) (message : String)
  | errors (status : Nat) (message : String)
  | result (data : GraphQLData)
  deriving DecidableEq, Repr

/-- The part of the `/query` handler before `executeGraphQLQuery`: the reply that ends the
request early, or the context and the decoded body the query is executed with. -/
def handlerContext (r : HttpRequest) : Except HttpResponse (Ctx × GraphQLRequest) :=
  if r.Method ≠ "POST" then .error (.plain 405 "Method not allowed")
  else
    match r.Body with
    | none => .error (.plain 400 "Invalid JSON")
    | some req =>
      -- Check if it's a mutation (requires auth)
      let isMutation := strings.Contains (strings.ToLower req.Query) "mutation"
      if isMutation then
        let authHeader := r.Authorization
        if authHeader = "" ∨ strings.HasPrefix authHeader "Bearer " = false then
          .error (.errors 401 "Authorization required for mutations")
        else
          let token := strings.TrimPrefix authHeader "Bearer "
          let userID := validateJWT token
          if userID = "" then .error (.errors 401 "Invalid token")
          else .ok ({ user := some userID }, req)
      else .ok ({ user := none }, req)

/-- Model of the `/query` handler, with the service in the place of the gRPC client. -/
def queryHandler (tf : TimeFormat) (s : State) (r : HttpRequest) (env : Env) :
    HttpResponse × State :=
  match handlerContext r with
  | .error reply => (reply, s)
  | .ok (ctx, req) =>
    match executeGraphQLQuery tf s ctx req.Query req.Variables env with
    | (.error msg, s1) => (.errors 500 msg, s1)
    | (.ok data, s1) => (.result data, s1)

/-- The request the `/query` handler sends to the service for an HTTP request, if it sends one. -/
def forwardedCall (r : HttpRequest) : Option Call :=
  match handlerContext r with
  | .error _ => none
  | .ok (ctx, req) =>
    match requestOf ctx req.Query req.Variables with
    | .error _ => none
    | .ok call => some call

/-- The `Authorization` header the playground page tells callers to send: `Bearer` and the
token of `generateJWT`. -/
def playgroundAuthorization : String :=
  "Bearer eyJhbGciOiJIUzI1NiIsInR5cCI6IkpXVCJ9" ++ "." ++
    "eyJzdWIiOiJ0ZXN0LXVzZXIiLCJpYXQiOjE2MzQ1Njc4OTYsImV4cCI6MTYzNDU3MTQ5Nn0" ++ "." ++
    "test-signature-for-development"

/-- The request of the "Create Post" command of the playground page: the query text is
`mutation { createPost(content: "Hello Muze!") { id content author { name } likes } }`, with no
variables. -/
def playgroundCreatePost : HttpRequest :=
  { Method := "POST"
    Authorization := playgroundAuthorization
    Body := some
      { Query := "mutation \x7b createPost(content: \x22Hello Muze!\x22) \x7b id content author \x7b name \x7d likes \x7d \x7d"
        Variables := [] } }

/-- A request that names `createPost` without the word `mutation` and without an `Authorization`
header; the content comes in the variables. -/
def anonymousCreatePost : HttpRequest :=
  { Method := "POST"
    Authorization := ""
    Body := some
      { Query := "\x7b createPost(content: $content) \x7b id \x7d \x7d"
        Variables := [("content", .string "hi")] } }

/-- A request that names `likePost` without the word `mutation` and without an `Authorization`
header; the post id comes in the variables. -/
def anonymousLikePost : HttpRequest :=
  { Method := "POST"
    Authorization := ""
    Body := some
      { Query := "\x7b likePost(postId: $postId) \x7b id likes \x7d \x7d"
        Variables := [("postId", .string (uuidText 1))] } }

/-- A request without an `Authorization` header whose query spells the keyword with U+0130, the
capital I with dot above, which `strings.ToLower` lowers to `i`; the content comes in the
variables. -/
def dottedMutationCreatePost : HttpRequest :=
  { Method := "POST"
    Authorization := ""
    Body := some
      { Query := "MUTAT\u0130ON \x7b createPost(content: $content) \x7b id \x7d \x7d"
        Variables := [("content", .string "hi")] } }

/-- An environment in which the store fails the duplicate lookup of `LikePost` and runs every
other statement. -/
def lookupDownEnv : Env :=
  { Env.healthy 12 0 3 with
    dbFault := fun op => if op = DbOp.likeLookup then some (.failure "bad connection")
      else none }

theorem hexField_length (k v : Nat) : (hexField k v).length = k := by
  induction k generalizing v with
  | zero => rfl
  | succ k ih => simp [hexField, ih]

theorem uuidText_length (v : Nat) : (uuidText v).length = 36 := by
  simp [uuidText, String.length, hexField_length]

theorem uuidText_ne_empty (v : Nat) : uuidText v ≠ "" := by
  intro h
  have := uuidText_length v
  rw [h] at this
  simp at this

theorem int32_of_range {n : Int} (hlo : -2147483648 ≤ n) (hhi : n ≤ 2147483647) :
    int32 n = n := by
  unfold int32
  omega

theorem Env.healthy_storeUp (now a b : Nat) : (Env.healthy now a b).storeUp := fun _ => rfl

/-- With the primary key in force, the lookup by key of a live row returns that row. -/
theorem Store.firstPost_of_mem {db : Store} (hkey : db.postsKey) {p : Post}
    (hp : p ∈ db.posts) (hlive : p.DeletedAt = none) : db.firstPost p.ID = some p := by
  unfold Store.postsKey at hkey
  unfold Store.firstPost
  generalize db.posts = rows at hkey hp
  induction rows with
  | nil => cases hp
  | cons q rest ih =>
    rw [List.map_cons, List.nodup_cons] at hkey
    rcases List.mem_cons.mp hp with rfl | hin
    · simp [List.find?, hlive]
    · have hne : q.ID ≠ p.ID := by
        intro h
        exact hkey.1 (h ▸ List.mem_map_of_mem Post.ID hin)
      simp only [List.find?, hne, false_and, decide_False]
      exact ih hkey.2 hin

/-- What a successful lookup by key tells about the row. -/
theorem Store.firstPost_some {db : Store} {id : String} {p : Post}
    (h : db.firstPost id = some p) : p ∈ db.posts ∧ p.ID = id ∧ p.DeletedAt = none := by
  unfold Store.firstPost at h
  have h1 := List.mem_of_find?_eq_some h
  have h2 := List.find?_some h
  simp only [decide_eq_true_eq] at h2
  exact ⟨h1, h2.1, h2.2⟩

/-- A lookup by key finds nothing exactly when no live row carries the key. -/
theorem Store.firstPost_none {db : Store} {id : String} :
    db.firstPost id = none ↔ ∀ p ∈ db.posts, p.DeletedAt = none → p.ID ≠ id := by
  unfold Store.firstPost
  rw [List.find?_eq_none]
  constructor
  · intro h p hp hl he
    exact h p hp (by simp [he, hl])
  · intro h p hp hd
    simp only [decide_eq_true_eq] at hd
    exact h p hp hd.2 hd.1

/-- The duplicate lookup finds nothing exactly when no like record pairs the post with the user. -/
theorem Store.firstLike_none {db : Store} {postId userId : String} :
    db.firstLike postId userId = none ↔
      ∀ l ∈ db.likes, ¬ (l.PostID = postId ∧ l.UserID = userId) := by
  unfold Store.firstLike
  rw [List.find?_eq_none]
  simp

theorem Store.firstLike_isSome {db : Store} {postId userId : String} :
    (db.firstLike postId userId).isSome = true ↔
      ∃ l ∈ db.likes, l.PostID = postId ∧ l.UserID = userId := by
  unfold Store.firstLike
  rw [List.find?_isSome]
  simp

/-! ## LikePost -/

/-- The two ways a `LikePost` call ends: an error with the state untouched, or a commit whose
effect on the three components is spelled out. -/
theorem LikePost_outcome (tf : TimeFormat) (s : State) (req : LikePostRequest) (env : Env) :
    (∃ st : Status, LikePost tf s req env = (.error st, s)) ∨
    (∃ found : Post,
      existingLikeFound env s.db req = false ∧
      (likeRecord req env).ID ∉ s.db.likes.map PostLike.ID ∧
      s.db.firstPost req.PostId = some found ∧
      LikePost tf s req env =
        (.ok (convertToProtoPost tf (likedRow found env)),
          { db := { posts := s.db.posts.map (fun q =>
                      if q.ID = found.ID ∧ q.DeletedAt = none then likedRow found env else q),
                    likes := s.db.likes ++ [likeRecord req env] },
            redis := InvalidatePostCache env s.redis req.PostId,
            nats := PublishPostLiked tf env s.nats (likedRow found env) req.UserId })) := by
  unfold LikePost
  cases hdup : existingLikeFound env s.db req with
  | true => left; simp only [if_true]; exact ⟨_, rfl⟩
  | false =>
    simp only [Bool.false_eq_true, if_false]
    unfold txCreateLike
    cases hb : env.dbFault .begin with
    | some e => left; exact ⟨_, rfl⟩
    | none =>
      cases hc : env.dbFault .createLike with
      | some e => left; exact ⟨_, rfl⟩
      | none =>
        simp only [Store.createLike]
        by_cases hid : uuidText env.likeUUID ∈ s.db.likes.map PostLike.ID
        · left; simp only [hid, if_true]; exact ⟨_, rfl⟩
        · simp only [hid, if_false]
          unfold txFirstPost
          cases hf : env.dbFault .firstPost with
          | some e => left; exact ⟨_, rfl⟩
          | none =>
            have hfp : Store.firstPost { s.db with likes := s.db.likes ++
                [{ ID := uuidText env.likeUUID, PostID := req.PostId, UserID := req.UserId }] }
                req.PostId = s.db.firstPost req.PostId := rfl
            simp only [hfp]
            cases hfound : s.db.firstPost req.PostId with
            | none => left; exact ⟨_, rfl⟩
            | some found =>
              unfold txSavePost
              cases hs : env.dbFault .savePost with
              | some e => left; exact ⟨_, rfl⟩
              | none =>
                cases hcm : env.dbFault .commit with
                | some e => left; exact ⟨_, rfl⟩
                | none => right; exact ⟨found, trivial, hid, rfl, rfl⟩

/-- The committing run of `LikePost`: the store runs every statement, the key drawn for the
like is new, the duplicate lookup finds nothing and the post is there. -/
theorem LikePost_commits (tf : TimeFormat) (s : State) (req : LikePostRequest) (env : Env)
    (found : Post) (hup : env.storeUp)
    (hfresh : uuidText env.likeUUID ∉ s.db.likes.map PostLike.ID)
    (hnew : s.db.firstLike req.PostId req.UserId = none)
    (hfound : s.db.firstPost req.PostId = some found) :
    LikePost tf s req env =
      (.ok (convertToProtoPost tf (likedRow found env)),
        { db := { posts := s.db.posts.map (fun q =>
                    if q.ID = found.ID ∧ q.DeletedAt = none then likedRow found env else q),
                  likes := s.db.likes ++ [likeRecord req env] },
          redis := InvalidatePostCache env s.redis req.PostId,
          nats := PublishPostLiked tf env s.nats (likedRow found env) req.UserId }) := by
  have hfp : Store.firstPost { s.db with likes := s.db.likes ++
      [{ ID := uuidText env.likeUUID, PostID := req.PostId, UserID := req.UserId }] }
      req.PostId = some found := hfound
  simp only [LikePost, existingLikeFound, txCreateLike, txFirstPost, txSavePost, hup _, hnew,
    Store.createLike, hfresh, hfp, Option.isSome_none, Bool.false_eq_true, if_false]
  rfl

/-- The identifiers of the rows after `Save`. -/
theorem savedRows_ids (rows : List Post) (found : Post) (env : Env) :
    (rows.map (fun q =>
      if q.ID = found.ID ∧ q.DeletedAt = none then likedRow found env else q)).map Post.ID =
      rows.map Post.ID := by
  rw [List.map_map]
  apply List.map_congr_left
  intro q _
  simp only [Function.comp]
  split
  · rename_i h; exact h.1.symm
  · rfl

/-- After a committed like of the live row `p`, under the primary key, the lookup by the key
of `p` returns the row written back. -/
theorem savedRows_firstPost {rows : List Post} (hkey : (rows.map Post.ID).Nodup) {p : Post}
    (hp : p ∈ rows) (hlive : p.DeletedAt = none) (env : Env) :
    Store.firstPost
      { posts := rows.map (fun q =>
          if q.ID = p.ID ∧ q.DeletedAt = none then likedRow p env else q), likes := [] } p.ID
      = some (likedRow p env) := by
  have hmem : likedRow p env ∈ rows.map (fun q =>
      if q.ID = p.ID ∧ q.DeletedAt = none then likedRow p env else q) := by
    apply List.mem_map.mpr
    exact ⟨p, hp, by simp [hlive]⟩
  have hk : Store.postsKey { posts := rows.map (fun q =>
      if q.ID = p.ID ∧ q.DeletedAt = none then likedRow p env else q), likes := [] } := by
    show (List.map Post.ID _).Nodup
    rw [savedRows_ids]; exact hkey
  exact Store.firstPost_of_mem hk hmem hlive

/-- After a committed like of `p`, under the primary key, every row carrying the key of `p`
has the like count of `p` plus one. -/
theorem savedRows_count {rows : List Post} (hkey : (rows.map Post.ID).Nodup) {p : Post}
    (hp : p ∈ rows) (hlive : p.DeletedAt = none) (env : Env) :
    ∀ q ∈ rows.map (fun q => if q.ID = p.ID ∧ q.DeletedAt = none then likedRow p env else q),
      q.ID = p.ID → q.Likes = p.Likes + 1 := by
  intro q hq hid
  simp only [List.mem_map] at hq
  obtain ⟨q0, hq0, rfl⟩ := hq
  by_cases hc : q0.ID = p.ID ∧ q0.DeletedAt = none
  · simp [hc, likedRow]
  · exfalso
    rw [if_neg hc] at hid
    have hq0p : q0 = p := List.inj_on_of_nodup_map hkey hq0 hp hid
    exact hc ⟨hid, hq0p ▸ hlive⟩

/-- Claim C1 (amended): in a store that holds a live post `p` with like count `n` (rows of
`posts` keyed by `ID`) and no like record of user `u` for `p`, a `LikePost` call for
`(p.ID, u)` during which no store statement fails commits: it returns a post with the
identifier of `p` and like count `int32 (n + 1)`, which is `n + 1` whenever `n + 1` lies in
the 32-bit range of the response field; the row stored for `p` then has like count `n + 1`,
and exactly one like record, `(p.ID, u)`, has been added. -/
theorem LikePost_counts_once (tf : TimeFormat) (s : State) (p : Post) (u : String) (env : Env)
    (hkey : s.db.postsKey) (hp : p ∈ s.db.posts) (hlive : p.DeletedAt = none)
    (hu : ∀ l ∈ s.db.likes, ¬ (l.PostID = p.ID ∧ l.UserID = u))
    (hup : env.storeUp) (hfresh : uuidText env.likeUUID ∉ s.db.likes.map PostLike.ID) :
    ∃ r : PbPost,
      (LikePost tf s ⟨p.ID, u⟩ env).1 = .ok r ∧
      r.Id = p.ID ∧
      r.Likes = int32 (p.Likes + 1) ∧
      (-2147483648 ≤ p.Likes + 1 → p.Likes + 1 ≤ 2147483647 → r.Likes = p.Likes + 1) ∧
      (LikePost tf s ⟨p.ID, u⟩ env).2.db.firstPost p.ID =
        some { p with Likes := p.Likes + 1, UpdatedAt := env.now } ∧
      (∀ q ∈ (LikePost tf s ⟨p.ID, u⟩ env).2.db.posts, q.ID = p.ID → q.Likes = p.Likes + 1) ∧
      (LikePost tf s ⟨p.ID, u⟩ env).2.db.likes =
        s.db.likes ++ [{ ID := uuidText env.likeUUID, PostID := p.ID, UserID := u }] := by
  have hfound : s.db.firstPost p.ID = some p := Store.firstPost_of_mem hkey hp hlive
  have hrun := LikePost_commits tf s ⟨p.ID, u⟩ env p hup hfresh
    (Store.firstLike_none.mpr hu) hfound
  refine ⟨convertToProtoPost tf (likedRow p env), ?_, rfl, rfl, ?_, ?_, ?_, ?_⟩
  · rw [hrun]
  · intro hlo hhi
    exact int32_of_range hlo hhi
  · rw [hrun]
    exact savedRows_firstPost hkey hp hlive env
  · rw [hrun]
    exact savedRows_count hkey hp hlive env
  · rw [hrun]
    rfl

/-- Witness for claim C1: `helloPost`, liked by `u2` in a healthy environment. -/
theorem LikePost_counts_once_witness :
    ∃ r : PbPost,
      (LikePost plainFormat helloState ⟨helloPost.ID, "u2"⟩ (Env.healthy 11 0 2)).1 = .ok r ∧
      r.Id = helloPost.ID ∧
      r.Likes = int32 (helloPost.Likes + 1) ∧
      (-2147483648 ≤ helloPost.Likes + 1 → helloPost.Likes + 1 ≤ 2147483647 →
        r.Likes = helloPost.Likes + 1) ∧
      (LikePost plainFormat helloState ⟨helloPost.ID, "u2"⟩ (Env.healthy 11 0 2)).2.db.firstPost
          helloPost.ID =
        some { helloPost with Likes := helloPost.Likes + 1, UpdatedAt := (Env.healthy 11 0 2).now } ∧
      (∀ q ∈ (LikePost plainFormat helloState ⟨helloPost.ID, "u2"⟩ (Env.healthy 11 0 2)).2.db.posts,
        q.ID = helloPost.ID → q.Likes = helloPost.Likes + 1) ∧
      (LikePost plainFormat helloState ⟨helloPost.ID, "u2"⟩ (Env.healthy 11 0 2)).2.db.likes =
        helloState.db.likes ++
          [{ ID := uuidText (Env.healthy 11 0 2).likeUUID, PostID := helloPost.ID, UserID := "u2" }] :=
  LikePost_counts_once plainFormat helloState helloPost "u2" (Env.healthy 11 0 2)
    (by decide) (by decide) rfl (by decide) (Env.healthy_storeUp 11 0 2) (by decide)

/-- Counterexample to claim C1 as stated: `fullPost` has like count 2147483647 and no like
record; the call succeeds, and the post it returns carries like count -2147483648, not
2147483648. -/
theorem LikePost_count_wraps :
    fullPost ∈ fullState.db.posts ∧
    fullPost.Likes = 2147483647 ∧
    fullState.db.firstLike fullPost.ID "u2" = none ∧
    returnedLikes (LikePost plainFormat fullState ⟨fullPost.ID, "u2"⟩ (Env.healthy 11 0 2)).1 =
      some (-2147483648) ∧
    returnedLikes (LikePost plainFormat fullState ⟨fullPost.ID, "u2"⟩ (Env.healthy 11 0 2)).1 ≠
      some (fullPost.Likes + 1) := by
  refine ⟨by decide, rfl, rfl, rfl, by decide⟩

/-- The duplicate check of `LikePost`: an answered lookup that finds a record ends the call. -/
theorem LikePost_duplicate (tf : TimeFormat) (s : State) (req : LikePostRequest) (env : Env)
    (hlook : env.dbFault .likeLookup = none)
    (hdup : ∃ l ∈ s.db.likes, l.PostID = req.PostId ∧ l.UserID = req.UserId) :
    LikePost tf s req env = (.error ⟨.AlreadyExists, "user already liked this post"⟩, s) := by
  have h : existingLikeFound env s.db req = true := by
    simp only [existingLikeFound, hlook]
    exact Store.firstLike_isSome.mpr hdup
  simp [LikePost, h]

/-- Claim C2 (amended): when a like record for `(postId, userId)` exists and the store answers
the duplicate lookup of the call, `LikePost` returns `AlreadyExists` and hands back the state as
it was:
no like record added, no like count changed, no cache key removed, no message published.  A
later like of the same live post `p` by a user without a like record therefore succeeds with
like count `int32 (n + 1)` for the count `n` stored before both calls; this is `n + 1`
whenever `n + 1` lies in the 32-bit range of the response field, and the stored count is
`n + 1`. -/
theorem LikePost_duplicate_changes_nothing (tf : TimeFormat) (s : State)
    (req : LikePostRequest) (env : Env)
    (hlook : env.dbFault .likeLookup = none)
    (hdup : ∃ l ∈ s.db.likes, l.PostID = req.PostId ∧ l.UserID = req.UserId) :
    LikePost tf s req env = (.error ⟨.AlreadyExists, "user already liked this post"⟩, s) ∧
    ∀ (p : Post) (u : String) (env2 : Env),
      s.db.postsKey → p ∈ s.db.posts → p.DeletedAt = none → p.ID = req.PostId →
      (∀ l ∈ s.db.likes, ¬ (l.PostID = p.ID ∧ l.UserID = u)) →
      env2.storeUp → uuidText env2.likeUUID ∉ s.db.likes.map PostLike.ID →
      ∃ r : PbPost,
        (LikePost tf (LikePost tf s req env).2 ⟨req.PostId, u⟩ env2).1 = .ok r ∧
        r.Likes = int32 (p.Likes + 1) ∧
        (-2147483648 ≤ p.Likes + 1 → p.Likes + 1 ≤ 2147483647 → r.Likes = p.Likes + 1) ∧
        ∀ q ∈ (LikePost tf (LikePost tf s req env).2 ⟨req.PostId, u⟩ env2).2.db.posts,
          q.ID = p.ID → q.Likes = p.Likes + 1 := by
  have hrej := LikePost_duplicate tf s req env hlook hdup
  refine ⟨hrej, ?_⟩
  intro p u env2 hkey hp hlive hid hu hup hfresh
  have hfound : s.db.firstPost req.PostId = some p := hid ▸ Store.firstPost_of_mem hkey hp hlive
  have hrun := LikePost_commits tf s ⟨req.PostId, u⟩ env2 p hup hfresh
    (Store.firstLike_none.mpr (hid ▸ hu)) hfound
  rw [hrej]
  refine ⟨convertToProtoPost tf (likedRow p env2), ?_, rfl, ?_, ?_⟩
  · rw [hrun]
  · intro hlo hhi
    exact int32_of_range hlo hhi
  · rw [hrun]
    exact savedRows_count hkey hp hlive env2

/-- Witness for claim C2: `helloStateLiked` holds the like of `u2`; `u2` likes again, then
`u3` likes. -/
theorem LikePost_duplicate_changes_nothing_witness :
    LikePost plainFormat helloStateLiked ⟨uuidText 1, "u2"⟩ (Env.healthy 11 0 3) =
      (.error ⟨.AlreadyExists, "user already liked this post"⟩, helloStateLiked) ∧
    returnedLikes (LikePost plainFormat
      (LikePost plainFormat helloStateLiked ⟨uuidText 1, "u2"⟩ (Env.healthy 11 0 3)).2
      ⟨uuidText 1, "u3"⟩ (Env.healthy 12 0 4)).1 = some 2 := by
  have h := LikePost_duplicate_changes_nothing plainFormat helloStateLiked ⟨uuidText 1, "u2"⟩
    (Env.healthy 11 0 3) rfl ⟨_, List.mem_singleton.mpr rfl, rfl, rfl⟩
  refine ⟨h.1, ?_⟩
  obtain ⟨r, h1, _, h3, _⟩ := h.2 { helloPost with Likes := 1 } "u3" (Env.healthy 12 0 4)
    (by decide) (by decide) rfl rfl (by decide) (Env.healthy_storeUp 12 0 4) (by decide)
  rw [h1]
  exact congrArg some (h3 (by decide) (by decide))

/-- Counterexample to claim C2 as stated, on both of its parts.  `helloStateLiked` holds a like
of `u2`; when the store fails the duplicate lookup, the first statement of `LikePost` reads the
error as "not liked yet": the repeated like of `u2` is not answered `AlreadyExists`, it succeeds
with like count 2, a second record for the pair is stored and a message is published.
`fullStateLiked` holds a like of `u2` for a post with like count 2147483647; the repeated like
of `u2` is rejected and changes nothing, and the later like of `u3` returns like count
-2147483648, not the previous count plus one. -/
theorem LikePost_after_duplicate_wraps :
    (∃ l ∈ helloStateLiked.db.likes, l.PostID = uuidText 1 ∧ l.UserID = "u2") ∧
    returnedCode (LikePost plainFormat helloStateLiked ⟨uuidText 1, "u2"⟩ lookupDownEnv).1 ≠
      some .AlreadyExists ∧
    returnedLikes (LikePost plainFormat helloStateLiked ⟨uuidText 1, "u2"⟩ lookupDownEnv).1 =
      some 2 ∧
    (LikePost plainFormat helloStateLiked ⟨uuidText 1, "u2"⟩ lookupDownEnv).2.db.likes.map
      (fun l => (l.PostID, l.UserID)) = [(uuidText 1, "u2"), (uuidText 1, "u2")] ∧
    (LikePost plainFormat helloStateLiked ⟨uuidText 1, "u2"⟩ lookupDownEnv).2.nats.length =
      helloStateLiked.nats.length + 1 ∧
    LikePost plainFormat fullStateLiked ⟨fullPost.ID, "u2"⟩ (Env.healthy 11 0 3) =
      (.error ⟨.AlreadyExists, "user already liked this post"⟩, fullStateLiked) ∧
    returnedLikes (LikePost plainFormat
      (LikePost plainFormat fullStateLiked ⟨fullPost.ID, "u2"⟩ (Env.healthy 11 0 3)).2
      ⟨fullPost.ID, "u3"⟩ (Env.healthy 12 0 4)).1 = some (-2147483648) ∧
    returnedLikes (LikePost plainFormat
      (LikePost plainFormat fullStateLiked ⟨fullPost.ID, "u2"⟩ (Env.healthy 11 0 3)).2
      ⟨fullPost.ID, "u3"⟩ (Env.healthy 12 0 4)).1 ≠ some (fullPost.Likes + 1) := by
  refine ⟨⟨_, List.mem_singleton.mpr rfl, rfl, rfl⟩, by decide, rfl, rfl, rfl, rfl, rfl,
    by decide⟩

/-- Claim C4 (amended): when the duplicate check of `LikePost` finds no like record and the
insert of the like record inside the transaction fails, be it for a violated uniqueness
constraint or for any other reason, `LikePost` rolls the transaction back, leaving the state
as it was, and answers `Internal` with the text of the store error. -/
theorem LikePost_insert_failure (tf : TimeFormat) (s : State) (req : LikePostRequest)
    (env : Env) (e : DbError)
    (hpre : existingLikeFound env s.db req = false)
    (hinsert : txCreateLike env s.db (likeRecord req env) = .error e) :
    LikePost tf s req env = (.error ⟨.Internal, "failed to create like: " ++ e.Error⟩, s) := by
  have hins : txCreateLike env s.db
      { ID := uuidText env.likeUUID, PostID := req.PostId, UserID := req.UserId } = .error e :=
    hinsert
  unfold LikePost
  rw [hpre, if_neg Bool.false_ne_true]
  simp only [hins]

/-- Witness for claim C4: the insert is refused as a duplicate in `helloState`. -/
theorem LikePost_insert_failure_witness :
    LikePost plainFormat helloState ⟨uuidText 1, "u2"⟩ raceLostEnv =
      (.error ⟨.Internal, "failed to create like: " ++ (DbError.uniqueViolation
        "duplicate key value violates unique constraint (SQLSTATE 23505)").Error⟩, helloState) :=
  LikePost_insert_failure plainFormat helloState ⟨uuidText 1, "u2"⟩ raceLostEnv _ rfl rfl

/-- Counterexample to claim C4 as stated: the duplicate check finds no like record, the
insert fails on a uniqueness violation, and the answer is `Internal`, not `AlreadyExists`. -/
theorem LikePost_lost_race_is_internal :
    helloState.db.firstLike (uuidText 1) "u2" = none ∧
    raceLostEnv.dbFault .createLike = some (DbError.uniqueViolation
      "duplicate key value violates unique constraint (SQLSTATE 23505)") ∧
    returnedCode (LikePost plainFormat helloState ⟨uuidText 1, "u2"⟩ raceLostEnv).1 =
      some Code.Internal ∧
    returnedCode (LikePost plainFormat helloState ⟨uuidText 1, "u2"⟩ raceLostEnv).1 ≠
      some Code.AlreadyExists := by
  refine ⟨rfl, rfl, rfl, by decide⟩

/-! ## CreatePost -/

/-- The row `CreatePost` stores: the literal of the call with the drawn identifier. -/
theorem dbCreatePost_ok {env : Env} {db db2 : Store} {post row : Post}
    (h : dbCreatePost env db post = .ok (row, db2)) :
    env.dbFault .createPost = none ∧ row = { post with ID := uuidText env.postUUID } ∧
    row.ID ∉ db.posts.map Post.ID ∧ db2 = { db with posts := db.posts ++ [row] } := by
  unfold dbCreatePost at h
  cases hf : env.dbFault .createPost with
  | some e => rw [hf] at h; cases h
  | none =>
    rw [hf] at h
    simp only [Store.createPost] at h
    split at h
    · cases h
    · rename_i hno
      injection h with h
      injection h with h1 h2
      subst h1
      exact ⟨rfl, rfl, hno, h2.symm⟩

/-- The two ways a `CreatePost` call ends: an error with the state untouched, or one new row. -/
theorem CreatePost_outcome (tf : TimeFormat) (s : State) (req : CreatePostRequest) (env : Env) :
    (∃ st : Status, CreatePost tf s req env = (.error st, s)) ∨
    (∃ row : Post,
      row = { newPost req env with ID := uuidText env.postUUID } ∧
      row.ID ∉ s.db.posts.map Post.ID ∧
      CreatePost tf s req env =
        (.ok (convertToProtoPost tf row),
          { db := { s.db with posts := s.db.posts ++ [row] },
            redis := CachePost env s.redis row,
            nats := PublishPostCreated tf env s.nats row })) := by
  unfold CreatePost
  split
  · left; exact ⟨_, rfl⟩
  · cases hc : dbCreatePost env s.db (newPost req env) with
    | error e => left; exact ⟨_, rfl⟩
    | ok v =>
      obtain ⟨row, db2⟩ := v
      obtain ⟨_, hrow, hfresh, hdb⟩ := dbCreatePost_ok hc
      right
      refine ⟨row, hrow, hfresh, ?_⟩
      simp only [hdb]

/-! ## The reads leave the store alone -/

theorem GetPostById_db (tf : TimeFormat) (s : State) (req : GetPostByIdRequest) (env : Env) :
    (GetPostById tf s req env).2.db = s.db := by
  unfold GetPostById
  split
  · rfl
  · split
    · split <;> rfl
    · rfl

theorem GetPostsFromStore_db (tf : TimeFormat) (s : State) (req : GetPostsRequest) (env : Env) :
    (GetPostsFromStore tf s req env).2.db = s.db := by
  unfold GetPostsFromStore
  simp only
  split <;> rfl

theorem GetPosts_db (tf : TimeFormat) (s : State) (req : GetPostsRequest) (env : Env) :
    (GetPosts tf s req env).2.db = s.db := by
  unfold GetPosts
  split
  · split
    · rfl
    · exact GetPostsFromStore_db tf s req env
  · exact GetPostsFromStore_db tf s req env

/-! ## What sequential calls keep true of the store -/

theorem Store.likeCount_append (posts : List Post) (likes : List PostLike) (l : PostLike)
    (id : String) :
    Store.likeCount { posts := posts, likes := likes ++ [l] } id =
      Store.likeCount { posts := posts, likes := likes } id + (if l.PostID = id then 1 else 0) := by
  simp only [Store.likeCount, List.countP_append, List.countP_cons, List.countP_nil]
  by_cases h : l.PostID = id <;> simp [h]

/-- A committed like keeps the store consistent. -/
theorem liked_consistent {db : Store} (hc : db.consistent) {found : Post} {id : String}
    (hfound : db.firstPost id = some found) (l : PostLike) (hl : l.PostID = id) (env : Env) :
    Store.consistent
      { posts := db.posts.map (fun q =>
          if q.ID = found.ID ∧ q.DeletedAt = none then likedRow found env else q),
        likes := db.likes ++ [l] } := by
  obtain ⟨hkey, href, hcount⟩ := hc
  obtain ⟨hmem, hid, hlive⟩ := Store.firstPost_some hfound
  refine ⟨?_, ?_, ?_⟩
  · show (List.map Post.ID _).Nodup
    rw [savedRows_ids]; exact hkey
  · intro l2 hl2
    show l2.PostID ∈ List.map Post.ID _
    rw [savedRows_ids]
    rcases List.mem_append.mp hl2 with h | h
    · exact href l2 h
    · rw [List.mem_singleton.mp h, hl, ← hid]
      exact List.mem_map_of_mem Post.ID hmem
  · intro p hp
    simp only [List.mem_map] at hp
    obtain ⟨q, hq, rfl⟩ := hp
    rw [Store.likeCount_append]
    by_cases hcond : q.ID = found.ID ∧ q.DeletedAt = none
    · rw [if_pos hcond]
      have hlid : l.PostID = (likedRow found env).ID := by rw [hl, ← hid]; rfl
      rw [if_pos hlid]
      have := hcount found hmem
      show found.Likes + 1 = _
      rw [this]
      simp [Store.likeCount, likedRow]
    · rw [if_neg hcond]
      have hne : l.PostID ≠ q.ID := by
        intro h
        have hq_id : q.ID = found.ID := by rw [← h, hl, hid]
        have hqf : q = found := List.inj_on_of_nodup_map hkey hq hmem hq_id
        exact hcond ⟨hq_id, hqf ▸ hlive⟩
      rw [if_neg hne]
      have := hcount q hq
      simpa [Store.likeCount] using this

/-- A created post keeps the store consistent. -/
theorem created_consistent {db : Store} (hc : db.consistent) {row : Post}
    (hfresh : row.ID ∉ db.posts.map Post.ID) (hzero : row.Likes = 0) :
    Store.consistent { db with posts := db.posts ++ [row] } := by
  obtain ⟨hkey, href, hcount⟩ := hc
  refine ⟨?_, ?_, ?_⟩
  · show (List.map Post.ID (db.posts ++ [row])).Nodup
    rw [List.map_append, List.map_singleton]
    apply List.Nodup.append hkey (List.nodup_singleton _)
    intro a ha hb
    rw [List.mem_singleton.mp hb] at ha
    exact hfresh ha
  · intro l hl
    show l.PostID ∈ List.map Post.ID (db.posts ++ [row])
    rw [List.map_append]
    exact List.mem_append_left _ (href l hl)
  · intro p hp
    rcases List.mem_append.mp hp with h | h
    · exact hcount p h
    · rw [List.mem_singleton.mp h, hzero]
      have hnone : ∀ l ∈ db.likes, ¬ (decide (l.PostID = row.ID) = true) := by
        intro l hl hd
        simp only [decide_eq_true_eq] at hd
        exact hfresh (hd ▸ href l hl)
      have : Store.likeCount { db with posts := db.posts ++ [row] } row.ID = 0 := by
        unfold Store.likeCount
        exact List.countP_eq_zero.mpr hnone
      rw [this]; rfl

/-- Each call keeps the store consistent, whatever fails on the way. -/
theorem step_consistent (tf : TimeFormat) (s : State) (c : Call) (env : Env)
    (hc : s.db.consistent) : (step tf s c env).db.consistent := by
  cases c with
  | CreatePost req =>
    show (CreatePost tf s req env).2.db.consistent
    rcases CreatePost_outcome tf s req env with ⟨st, h⟩ | ⟨row, hrow, hfresh, h⟩
    · rw [h]; exact hc
    · rw [h]
      exact created_consistent hc hfresh (by rw [hrow]; rfl)
  | GetPosts req =>
    show (GetPosts tf s req env).2.db.consistent
    rw [GetPosts_db]; exact hc
  | GetPostById req =>
    show (GetPostById tf s req env).2.db.consistent
    rw [GetPostById_db]; exact hc
  | LikePost req =>
    show (LikePost tf s req env).2.db.consistent
    rcases LikePost_outcome tf s req env with ⟨st, h⟩ | ⟨found, _, _, hfound, h⟩
    · rw [h]; exact hc
    · rw [h]
      exact liked_consistent hc hfound (likeRecord req env) rfl env

theorem empty_consistent : Store.empty.consistent := by
  refine ⟨List.nodup_nil, ?_, ?_⟩
  · intro l hl; cases hl
  · intro p hp; cases hp

/-- The scenario of the specification, call by call: the created post has no like, the like
of `u2` returns count 1, the repeated like of `u2` is turned away with `AlreadyExists`, and the
like of `u3` returns count 2. -/
theorem scenario_answers :
    returnedLikes (CreatePost plainFormat { db := Store.empty, redis := Cache.empty, nats := [] }
      ⟨"hello", "u1", none⟩ (Env.healthy 10 1 0)).1 = some 0 ∧
    returnedLikes (LikePost plainFormat helloState ⟨uuidText 1, "u2"⟩ (Env.healthy 11 0 2)).1 =
      some 1 ∧
    returnedCode (LikePost plainFormat helloStateLiked ⟨uuidText 1, "u2"⟩ (Env.healthy 12 0 3)).1 =
      some Code.AlreadyExists ∧
    returnedLikes (LikePost plainFormat helloStateLiked ⟨uuidText 1, "u3"⟩ (Env.healthy 13 0 4)).1 =
      some 2 ∧
    scenarioState.db.posts = [{ helloPost with Likes := 2, UpdatedAt := 13 }] ∧
    scenarioState.db.likes.map (fun l => (l.PostID, l.UserID)) =
      [(uuidText 1, "u2"), (uuidText 1, "u3")] :=
  ⟨rfl, rfl, rfl, rfl, rfl, rfl⟩

theorem scenario_reachable (allowed : Env → Prop)
    (h : ∀ now a b, allowed (Env.healthy now a b)) :
    Reachable plainFormat allowed scenarioState :=
  ⟨{ db := Store.empty, redis := Cache.empty, nats := [] }, rfl,
    .call _ _ (.call _ _ (.call _ _ (.call _ _ .start (h _ _ _)) (h _ _ _)) (h _ _ _)) (h _ _ _)⟩

/-- Claim C5: in every state reached from the empty store by calls of `CreatePost`, `GetPosts`,
`GetPostById` and `LikePost` handled one after the other, whether they succeed or fail and
whatever store statement, cache command or publication fails on the way, the like count of
each stored post is the number of like records whose post id is the id of that post. -/
theorem like_count_is_record_count (tf : TimeFormat) (s : State)
    (h : Reachable tf anyEnv s) :
    ∀ p ∈ s.db.posts, p.Likes = (s.db.likeCount p.ID : Int) := by
  obtain ⟨s0, h0, hr⟩ := h
  have hc : s.db.consistent := by
    induction hr with
    | start => rw [h0]; exact empty_consistent
    | call c env _ _ ih => exact step_consistent tf _ c env ih
  exact hc.2.2

/-- Witness for claim C5: the state the scenario of the specification ends in holds the post
with like count 2 and two like records for it. -/
theorem like_count_is_record_count_witness :
    ({ helloPost with Likes := 2, UpdatedAt := 13 } : Post).Likes =
      (scenarioState.db.likeCount (uuidText 1) : Int) :=
  like_count_is_record_count plainFormat scenarioState
    (scenario_reachable anyEnv (fun _ _ _ => trivial))
    { helloPost with Likes := 2, UpdatedAt := 13 } (by decide)

/-- Rows are never removed and never change their identifier. -/
theorem step_ids (tf : TimeFormat) (s : State) (c : Call) (env : Env) (id : String)
    (hid : id ∈ s.db.posts.map Post.ID) : id ∈ (step tf s c env).db.posts.map Post.ID := by
  cases c with
  | CreatePost req =>
    show id ∈ (CreatePost tf s req env).2.db.posts.map Post.ID
    rcases CreatePost_outcome tf s req env with ⟨st, h⟩ | ⟨row, _, _, h⟩
    · rw [h]; exact hid
    · rw [h]
      show id ∈ List.map Post.ID (s.db.posts ++ [row])
      rw [List.map_append]
      exact List.mem_append_left _ hid
  | GetPosts req =>
    show id ∈ (GetPosts tf s req env).2.db.posts.map Post.ID
    rw [GetPosts_db]; exact hid
  | GetPostById req =>
    show id ∈ (GetPostById tf s req env).2.db.posts.map Post.ID
    rw [GetPostById_db]; exact hid
  | LikePost req =>
    show id ∈ (LikePost tf s req env).2.db.posts.map Post.ID
    rcases LikePost_outcome tf s req env with ⟨st, h⟩ | ⟨found, _, _, _, h⟩
    · rw [h]; exact hid
    · rw [h]
      show id ∈ List.map Post.ID (List.map _ s.db.posts)
      rw [savedRows_ids]; exact hid

theorem reachableFrom_ids {tf : TimeFormat} {allowed : Env → Prop} {s1 s2 : State}
    (h : ReachableFrom tf allowed s1 s2) (id : String)
    (hid : id ∈ s1.db.posts.map Post.ID) : id ∈ s2.db.posts.map Post.ID := by
  induction h with
  | start => exact hid
  | call c env _ _ ih => exact step_ids tf _ c env id ih

/-- Claim C8: a `CreatePost` request with non-empty content whose store write succeeds gets
back a post with like count 0, the content and the author id of the request, author name
`"User "` followed by the author id, the image reference of the request (present exactly when
the request carried one), and the identifier the store assigned to the new row; that
identifier is not empty, differs from the identifier of every row already stored, and no
later successful `CreatePost`, after any calls in between, returns it again. -/
theorem CreatePost_returns_stored_post (tf : TimeFormat) (s : State) (req : CreatePostRequest)
    (env : Env) (row : Post) (db2 : Store)
    (hcontent : req.Content ≠ "")
    (hwrite : dbCreatePost env s.db (newPost req env) = .ok (row, db2)) :
    ∃ r : PbPost,
      (CreatePost tf s req env).1 = .ok r ∧
      (CreatePost tf s req env).2.db = db2 ∧ row ∈ db2.posts ∧
      r.Likes = 0 ∧ r.Content = req.Content ∧ r.AuthorId = req.AuthorId ∧
      r.AuthorName = "User " ++ req.AuthorId ∧ r.ImageUrl = req.ImageUrl ∧
      r.Id = row.ID ∧ r.Id ≠ "" ∧
      (∀ q ∈ s.db.posts, q.ID ≠ r.Id) ∧
      (∀ s2 : State, ReachableFrom tf anyEnv (CreatePost tf s req env).2 s2 →
        ∀ (req2 : CreatePostRequest) (env2 : Env) (r2 : PbPost),
          (CreatePost tf s2 req2 env2).1 = .ok r2 → r2.Id ≠ r.Id) := by
  obtain ⟨_, hrow, hfresh, hdb⟩ := dbCreatePost_ok hwrite
  have hrun : CreatePost tf s req env =
      (.ok (convertToProtoPost tf row),
        { db := db2, redis := CachePost env s.redis row,
          nats := PublishPostCreated tf env s.nats row }) := by
    simp only [CreatePost, hcontent, if_false, hwrite]
  have hin : row ∈ db2.posts := by
    rw [hdb]; exact List.mem_append_right _ (List.mem_singleton.mpr rfl)
  refine ⟨convertToProtoPost tf row, by rw [hrun], by rw [hrun], hin, ?_, ?_, ?_, ?_, ?_, rfl,
    ?_, ?_, ?_⟩
  · rw [hrow]; rfl
  · rw [hrow]; rfl
  · rw [hrow]; rfl
  · rw [hrow]; rfl
  · rw [hrow]; rfl
  · show row.ID ≠ ""
    rw [hrow]; exact uuidText_ne_empty _
  · intro q hq heq
    have heq2 : q.ID = row.ID := heq
    exact hfresh (heq2 ▸ List.mem_map_of_mem Post.ID hq)
  · intro s2 hreach req2 env2 r2 h2 heq
    have hmem : row.ID ∈ s2.db.posts.map Post.ID := by
      apply reachableFrom_ids hreach
      rw [hrun]
      exact List.mem_map_of_mem Post.ID hin
    rcases CreatePost_outcome tf s2 req2 env2 with ⟨st, h⟩ | ⟨row2, _, hfresh2, h⟩
    · rw [h] at h2; cases h2
    · rw [h] at h2
      injection h2 with h2
      rw [← h2] at heq
      have heq2 : row2.ID = row.ID := heq
      exact hfresh2 (heq2 ▸ hmem)

/-- Witness for claim C8: a post with an image reference, created in `helloState`. -/
theorem CreatePost_returns_stored_post_witness :
    ∃ r : PbPost,
      (CreatePost plainFormat helloState ⟨"again", "u7", some "http://img"⟩
        (Env.healthy 20 5 0)).1 = .ok r ∧
      r.Likes = 0 ∧ r.Content = "again" ∧ r.AuthorId = "u7" ∧ r.AuthorName = "User u7" ∧
      r.ImageUrl = some "http://img" ∧ r.Id = uuidText 5 ∧ r.Id ≠ "" := by
  obtain ⟨r, h1, _, _, h4, h5, h6, h7, h8, h9, h10, _⟩ :=
    CreatePost_returns_stored_post plainFormat helloState ⟨"again", "u7", some "http://img"⟩
      (Env.healthy 20 5 0) _ _ (by decide) rfl
  exact ⟨r, h1, h4, h5, h6, h7, h8, h9, h10⟩

/-- Claim C7: `CreatePost` with empty content answers `InvalidArgument` whatever the author
id and the image reference are, and hands back the state untouched: no row is written to the
store, no key to the cache, no message to the bus. -/
theorem CreatePost_empty_content (tf : TimeFormat) (s : State) (authorId : String)
    (imageUrl : Option String) (env : Env) :
    CreatePost tf s { Content := "", AuthorId := authorId, ImageUrl := imageUrl } env =
      (.error ⟨.InvalidArgument, "content cannot be empty"⟩, s) := by
  unfold CreatePost
  rw [if_pos rfl]

/-! ## Cache and bus failures -/

theorem CreatePost_side_effects (tf : TimeFormat) (s : State) (env : Env)
    (redisFault : RedisOp → Bool) (natsFault : Bool) (req : CreatePostRequest) :
    (CreatePost tf s req { env with redisFault := redisFault, natsFault := natsFault }).1 =
        (CreatePost tf s req env).1 ∧
    (CreatePost tf s req { env with redisFault := redisFault, natsFault := natsFault }).2.db =
        (CreatePost tf s req env).2.db := by
  have e1 : dbCreatePost { env with redisFault := redisFault, natsFault := natsFault } s.db
      (newPost req { env with redisFault := redisFault, natsFault := natsFault }) =
      dbCreatePost env s.db (newPost req env) := rfl
  unfold CreatePost
  rw [e1]
  split
  · exact ⟨rfl, rfl⟩
  · split
    · exact ⟨rfl, rfl⟩
    · exact ⟨rfl, rfl⟩

theorem LikePost_side_effects (tf : TimeFormat) (s : State) (env : Env)
    (redisFault : RedisOp → Bool) (natsFault : Bool) (req : LikePostRequest) :
    (LikePost tf s req { env with redisFault := redisFault, natsFault := natsFault }).1 =
        (LikePost tf s req env).1 ∧
    (LikePost tf s req { env with redisFault := redisFault, natsFault := natsFault }).2.db =
        (LikePost tf s req env).2.db := by
  have e1 : existingLikeFound { env with redisFault := redisFault, natsFault := natsFault }
      s.db req = existingLikeFound env s.db req := rfl
  have e2 : ∀ db like, txCreateLike { env with redisFault := redisFault, natsFault := natsFault }
      db like = txCreateLike env db like := fun _ _ => rfl
  have e3 : ∀ db id, txFirstPost { env with redisFault := redisFault, natsFault := natsFault }
      db id = txFirstPost env db id := fun _ _ => rfl
  have e4 : ∀ db p, txSavePost { env with redisFault := redisFault, natsFault := natsFault }
      db p = txSavePost env db p := fun _ _ => rfl
  unfold LikePost
  simp only [e1, e2, e3, e4]
  split
  · exact ⟨rfl, rfl⟩
  · split
    · exact ⟨rfl, rfl⟩
    · split
      · exact ⟨rfl, rfl⟩
      · split
        · exact ⟨rfl, rfl⟩
        · split
          · exact ⟨rfl, rfl⟩
          · exact ⟨rfl, rfl⟩

/-- Claim C9: for `CreatePost` and for `LikePost`, replacing the outcomes of the cache write,
of the cache invalidation and of the publication by any others, success or failure, changes
neither what the caller gets back (the post or the error) nor the store the call leaves. -/
theorem cache_and_bus_do_not_decide (tf : TimeFormat) (s : State) (env : Env)
    (redisFault : RedisOp → Bool) (natsFault : Bool) :
    (∀ req : CreatePostRequest,
      (CreatePost tf s req { env with redisFault := redisFault, natsFault := natsFault }).1 =
          (CreatePost tf s req env).1 ∧
      (CreatePost tf s req { env with redisFault := redisFault, natsFault := natsFault }).2.db =
          (CreatePost tf s req env).2.db) ∧
    (∀ req : LikePostRequest,
      (LikePost tf s req { env with redisFault := redisFault, natsFault := natsFault }).1 =
          (LikePost tf s req env).1 ∧
      (LikePost tf s req { env with redisFault := redisFault, natsFault := natsFault }).2.db =
          (LikePost tf s req env).2.db) := by
  constructor
  · intro req
    exact CreatePost_side_effects tf s env redisFault natsFault req
  · intro req
    exact LikePost_side_effects tf s env redisFault natsFault req

/-! ## Read after create -/

/-- The key written by `CachePost` reads back as the post written. -/
theorem GetCachedPost_CachePost (env env2 : Env) (c : Cache) (post : Post)
    (hset : env.redisFault .setPost = false) (hget : env2.redisFault .getPost = false) :
    GetCachedPost env2 (CachePost env c post) post.ID = some post := by
  simp [GetCachedPost, CachePost, hset, hget, List.lookup]

/-- The row just inserted under a new key is the one a lookup by that key finds. -/
theorem firstPost_appended (db : Store) (row : Post)
    (hfresh : row.ID ∉ db.posts.map Post.ID) (hlive : row.DeletedAt = none) :
    Store.firstPost { db with posts := db.posts ++ [row] } row.ID = some row := by
  have hnone : db.posts.find? (fun p => decide (p.ID = row.ID ∧ p.DeletedAt = none)) = none := by
    rw [List.find?_eq_none]
    intro p hp hd
    simp only [decide_eq_true_eq] at hd
    exact hfresh (hd.1 ▸ List.mem_map_of_mem Post.ID hp)
  show List.find? _ (db.posts ++ [row]) = some row
  rw [List.find?_append, hnone]
  simp [List.find?, hlive]

/-- Claim C10: after a successful `CreatePost` returning `r`, the next call, `GetPostById` for
`r.Id`, returns a post equal to `r` in every field (id, content, author id, author name,
image reference, likes, timestamp), both when the cache entry written by `CreatePost` is read
back and when the cache is unavailable and the store answers the lookup. -/
theorem GetPostById_after_CreatePost (tf : TimeFormat) (s s1 : State)
    (req : CreatePostRequest) (env env2 : Env) (r : PbPost)
    (hcreate : CreatePost tf s req env = (.ok r, s1)) :
    (env.redisFault .setPost = false → env2.redisFault .getPost = false →
      (GetPostById tf s1 ⟨r.Id⟩ env2).1 = .ok r) ∧
    (env2.redisFault .getPost = true → env2.dbFault .getById = none →
      (GetPostById tf s1 ⟨r.Id⟩ env2).1 = .ok r) := by
  rcases CreatePost_outcome tf s req env with ⟨st, h⟩ | ⟨row, hrow, hfresh, h⟩
  · rw [h] at hcreate; cases hcreate
  · rw [h] at hcreate
    injection hcreate with hr hs
    injection hr with hr
    subst hr hs
    have hlive : row.DeletedAt = none := by rw [hrow]; rfl
    constructor
    · intro hset hget
      have hhit := GetCachedPost_CachePost env env2 s.redis row hset hget
      show (GetPostById tf _ ⟨row.ID⟩ env2).1 = _
      simp only [GetPostById, hhit]
    · intro hdown hstore
      have hmiss : ∀ c : Cache, GetCachedPost env2 c row.ID = none := by
        intro c; simp [GetCachedPost, hdown]
      have hread := firstPost_appended s.db row hfresh hlive
      show (GetPostById tf _ ⟨row.ID⟩ env2).1 = _
      simp only [GetPostById, hmiss, dbGetById, hstore, hread]

/-- Witness for claim C10: a post created in `helloState`, read back through the cache. -/
theorem GetPostById_after_CreatePost_witness :
    (GetPostById plainFormat
      (CreatePost plainFormat helloState ⟨"again", "u7", none⟩ (Env.healthy 20 5 0)).2
      ⟨uuidText 5⟩ (Env.healthy 21 0 0)).1 =
    .ok { Id := uuidText 5, Content := "again", AuthorId := "u7", AuthorName := "User u7",
          ImageUrl := none, Likes := 0, Timestamp := "20" } :=
  (GetPostById_after_CreatePost plainFormat helloState _ ⟨"again", "u7", none⟩
    (Env.healthy 20 5 0) (Env.healthy 21 0 0) _ rfl).1 rfl rfl

/-! ## GetPostById on a cache miss -/

/-- The key written by `CachePost` reads back as the post written, in the keyspace itself. -/
theorem CachePost_lookup (env : Env) (c : Cache) (post : Post)
    (hset : env.redisFault .setPost = false) :
    (CachePost env c post).post.lookup post.ID = some post := by
  simp [CachePost, hset, List.lookup]

/-- A missing key is a miss, whether or not the cache answers. -/
theorem GetCachedPost_none (env : Env) (c : Cache) (id : String)
    (hmiss : c.post.lookup id = none) : GetCachedPost env c id = none := by
  unfold GetCachedPost
  split
  · rfl
  · exact hmiss

/-- Claim C11: for an id with no per-post cache entry, with the store answering the lookup,
`GetPostById` leaves the store as it was; it answers `NotFound`, changing nothing at all, when
no live row carries the id; and when a live row `p` carries it (rows keyed by `ID`), it returns
`p`, converted, and with the cache write going through leaves the per-post entry of that id
holding `p`. -/
theorem GetPostById_on_miss (tf : TimeFormat) (s : State) (id : String) (env : Env)
    (hmiss : s.redis.post.lookup id = none) (hstore : env.dbFault .getById = none) :
    (GetPostById tf s ⟨id⟩ env).2.db = s.db ∧
    ((∀ p ∈ s.db.posts, p.DeletedAt = none → p.ID ≠ id) →
      GetPostById tf s ⟨id⟩ env = (.error ⟨.NotFound, "post not found"⟩, s)) ∧
    (s.db.postsKey → ∀ p ∈ s.db.posts, p.DeletedAt = none → p.ID = id →
      (GetPostById tf s ⟨id⟩ env).1 = .ok (convertToProtoPost tf p) ∧
      (env.redisFault .setPost = false →
        (GetPostById tf s ⟨id⟩ env).2.redis.post.lookup id = some p)) := by
  have hcache : GetCachedPost env s.redis id = none := GetCachedPost_none env s.redis id hmiss
  refine ⟨GetPostById_db tf s ⟨id⟩ env, ?_, ?_⟩
  · intro habsent
    have hnone : s.db.firstPost id = none := Store.firstPost_none.mpr habsent
    simp only [GetPostById, hcache, dbGetById, hstore, hnone, if_true]
  · intro hkey p hp hlive hid
    have hfound : s.db.firstPost id = some p := hid ▸ Store.firstPost_of_mem hkey hp hlive
    have hrun : GetPostById tf s ⟨id⟩ env =
        (.ok (convertToProtoPost tf p), { s with redis := CachePost env s.redis p }) := by
      simp only [GetPostById, hcache, dbGetById, hstore, hfound]
    constructor
    · rw [hrun]
    · intro hset
      rw [hrun, ← hid]
      exact CachePost_lookup env s.redis p hset

/-- Witness for claim C11: `olderPost`, stored and not cached in `twoPostsState`. -/
theorem GetPostById_on_miss_witness :
    (GetPostById plainFormat twoPostsState ⟨uuidText 1⟩ (Env.healthy 30 0 0)).1 =
      .ok (convertToProtoPost plainFormat olderPost) ∧
    (GetPostById plainFormat twoPostsState ⟨uuidText 1⟩ (Env.healthy 30 0 0)).2.redis.post.lookup
      (uuidText 1) = some olderPost ∧
    (GetPostById plainFormat twoPostsState ⟨uuidText 1⟩ (Env.healthy 30 0 0)).2.db =
      twoPostsState.db := by
  have h := GetPostById_on_miss plainFormat twoPostsState (uuidText 1) (Env.healthy 30 0 0) rfl rfl
  have h2 := h.2.2 (by decide) olderPost (by decide) rfl rfl
  exact ⟨h2.1, h2.2 rfl, h.1⟩

/-! ## GetPosts answered from the cache -/

/-- Claim C13: when the cache hands back a recent-posts entry that is a non-empty list (of a
length the 32-bit total can hold), `GetPosts` returns, for every limit and offset, exactly the
cached posts in their cached order, each converted field by field, with total equal to the
length of the list; the state is left as it was, and the answer is the same whatever the store
holds and whatever the store would have done. -/
theorem GetPosts_from_cache (tf : TimeFormat) (s : State) (req : GetPostsRequest) (env : Env)
    (cached : List Post)
    (hget : env.redisFault .getRecent = false) (hentry : s.redis.recent = some cached)
    (hne : cached ≠ []) (hfit : cached.length ≤ 2147483647) :
    GetPosts tf s req env =
      (.ok { Posts := cached.map (convertToProtoPost tf), Total := (cached.length : Int) }, s) ∧
    (∀ (db2 : Store) (dbFault2 : DbOp → Option DbError),
      (GetPosts tf { s with db := db2 } req { env with dbFault := dbFault2 }).1 =
        .ok { Posts := cached.map (convertToProtoPost tf), Total := (cached.length : Int) }) := by
  have hpos : 0 < cached.length := List.length_pos.mpr hne
  have htotal : int32 ((cached.map (convertToProtoPost tf)).length : Int) = (cached.length : Int) := by
    rw [List.length_map]
    exact int32_of_range (by omega) (by omega)
  constructor
  · have hrec : GetRecentPosts env s.redis = some cached := by
      simp [GetRecentPosts, hget, hentry]
    simp only [GetPosts, hrec, hpos, if_true, htotal]
  · intro db2 dbFault2
    have hrec : GetRecentPosts { env with dbFault := dbFault2 }
        ({ s with db := db2 } : State).redis = some cached := by
      simp [GetRecentPosts, hget, hentry]
    simp only [GetPosts, hrec, hpos, if_true, htotal]

/-- Witness for claim C13: `helloState` has `helloPost` cached as the recent list; a request
for the second page of three gets that list. -/
theorem GetPosts_from_cache_witness :
    GetPosts plainFormat helloState ⟨3, 3⟩ (Env.healthy 30 0 0) =
      (.ok { Posts := [convertToProtoPost plainFormat helloPost], Total := 1 }, helloState) :=
  (GetPosts_from_cache plainFormat helloState ⟨3, 3⟩ (Env.healthy 30 0 0) [helloPost]
    rfl rfl (by decide) (by decide)).1

/-! ## Reads after a like -/

/-- A key removed from the per-post keyspace is not found any more. -/
theorem lookup_removed (kvs : List (String × Post)) (id : String) :
    (kvs.filter (fun kv => decide (kv.1 ≠ id))).lookup id = none := by
  induction kvs with
  | nil => rfl
  | cons kv rest ih =>
    by_cases h : kv.1 = id
    · simp only [List.filter, h, ne_eq, not_true_eq_false, decide_False]
      exact ih
    · have hb : (id == kv.1) = false := by
        simp only [beq_eq_false_iff_ne, ne_eq]
        exact fun he => h he.symm
      simp only [List.filter, h, ne_eq, not_false_eq_true, decide_True, List.lookup, hb]
      exact ih

/-- An invalidation that goes through removes both keys. -/
theorem InvalidatePostCache_clears (env : Env) (c : Cache) (id : String)
    (hdelPost : env.redisFault .delPost = false) (hdelRecent : env.redisFault .delRecent = false) :
    (InvalidatePostCache env c id).post.lookup id = none ∧
    (InvalidatePostCache env c id).recent = none := by
  simp only [InvalidatePostCache, hdelPost, hdelRecent, Bool.false_eq_true, if_false]
  exact ⟨lookup_removed c.post id, trivial⟩

/-- After `Save`, the lookup by key finds the row written back. -/
theorem firstPost_saved (rows : List Post) (likes likes2 : List PostLike) (found : Post)
    (env : Env) (id : String)
    (hfound : Store.firstPost { posts := rows, likes := likes } id = some found) :
    Store.firstPost
      { posts := rows.map (fun q =>
          if q.ID = found.ID ∧ q.DeletedAt = none then likedRow found env else q),
        likes := likes2 } id = some (likedRow found env) := by
  have hfid : found.ID = id := (Store.firstPost_some hfound).2.1
  simp only [Store.firstPost] at hfound ⊢
  induction rows with
  | nil => cases hfound
  | cons q rest ih =>
    by_cases hq : q.ID = id ∧ q.DeletedAt = none
    · have hqf : q = found := by
        simp only [List.find?, hq, and_self, decide_True] at hfound
        exact Option.some.inj hfound
      subst hqf
      have hl : (likedRow q env).ID = id ∧ (likedRow q env).DeletedAt = none := hq
      simp only [List.map, hq.2, and_self, if_true, List.find?, hl, decide_True]
    · have hrest : rest.find? (fun p => decide (p.ID = id ∧ p.DeletedAt = none)) = some found := by
        simpa only [List.find?, hq, decide_False] using hfound
      have hq2 : ¬ (q.ID = found.ID ∧ q.DeletedAt = none) := by
        rw [hfid]; exact hq
      simp only [List.map, if_neg hq2, List.find?, hq, decide_False]
      exact ih hrest

/-- After `Save`, every live row carrying the key of the liked row is the row written back. -/
theorem saved_rows_with_key (rows : List Post) (found : Post) (env : Env) (row : Post)
    (hrow : row ∈ rows.map (fun q =>
      if q.ID = found.ID ∧ q.DeletedAt = none then likedRow found env else q))
    (hid : row.ID = found.ID) (hlive : row.DeletedAt = none) : row = likedRow found env := by
  obtain ⟨q, _, hq⟩ := List.mem_map.mp hrow
  by_cases hc : q.ID = found.ID ∧ q.DeletedAt = none
  · rw [if_pos hc] at hq; exact hq.symm
  · rw [if_neg hc] at hq
    subst hq
    exact absurd ⟨hid, hlive⟩ hc

theorem mem_livePosts {db : Store} {p : Post} :
    p ∈ db.livePosts ↔ p ∈ db.posts ∧ p.DeletedAt = none := by
  simp [Store.livePosts, List.mem_filter]

theorem mem_orderByCreatedAtDesc {rows : List Post} {p : Post} :
    p ∈ orderByCreatedAtDesc rows ↔ p ∈ rows :=
  (List.perm_insertionSort _ rows).mem_iff

/-- Every row of a page is a live row of the store. -/
theorem dbFind_mem {env : Env} {db : Store} {req : GetPostsRequest} {queryError : Option DbError}
    {page : List Post} (h : dbFind env db req queryError = .ok page) :
    ∀ p ∈ page, p ∈ db.livePosts := by
  unfold dbFind at h
  cases queryError with
  | some e => cases h
  | none =>
    cases hf : env.dbFault .find with
    | some e => simp only [hf] at h; cases h
    | none =>
      simp only [hf] at h
      injection h with h
      subst h
      intro p hp
      apply mem_orderByCreatedAtDesc.mp
      by_cases hl : req.Limit > 0 <;> by_cases ho : req.Offset > 0 <;>
        simp only [hl, ho, if_true, if_false] at hp
      · exact List.mem_of_mem_drop (List.mem_of_mem_take hp)
      · exact List.mem_of_mem_take hp
      · exact List.mem_of_mem_drop hp
      · exact hp

/-- With no recent-posts entry, `GetPosts` is answered from the store. -/
theorem GetPosts_miss (tf : TimeFormat) (s : State) (req : GetPostsRequest) (env : Env)
    (hnone : s.redis.recent = none) :
    GetPosts tf s req env = GetPostsFromStore tf s req env := by
  have hrec : GetRecentPosts env s.redis = none := by
    unfold GetRecentPosts
    split
    · rfl
    · exact hnone
  simp only [GetPosts, hrec]

/-- What `Count` leaves when its statement runs: the number of live rows, and no error. -/
theorem dbCount_answered {env : Env} (db : Store) (hcount : env.dbFault .count = none) :
    dbCount env db = ((db.livePosts.length : Int), none) := by
  simp only [dbCount, hcount]

/-- A failed `Count` fails the call: its error stays in `query`, `Find` reports it, and the store
path answers `Internal` with the state, the recent-posts entry included, as it was. -/
theorem GetPostsFromStore_count_failure (tf : TimeFormat) (s : State) (req : GetPostsRequest)
    (env : Env) (e : DbError) (hcount : env.dbFault .count = some e) :
    GetPostsFromStore tf s req env =
      (.error ⟨.Internal, "failed to get posts: " ++ e.Error⟩, s) := by
  simp only [GetPostsFromStore, dbCount, hcount, dbFind]

/-- The page and the total the store path answers with when both statements run. -/
theorem GetPostsFromStore_answer (tf : TimeFormat) (s : State) (req : GetPostsRequest)
    (env : Env) (hfind : env.dbFault .find = none) (hcount : env.dbFault .count = none) :
    ∃ page : List Post, dbFind env s.db req none = .ok page ∧
      (GetPostsFromStore tf s req env).1 =
        .ok { Posts := page.map (convertToProtoPost tf),
              Total := int32 (s.db.livePosts.length : Int) } := by
  have hok : ∃ page, dbFind env s.db req none = .ok page := by
    simp only [dbFind, hfind]
    exact ⟨_, rfl⟩
  obtain ⟨page, hpage⟩ := hok
  refine ⟨page, hpage, ?_⟩
  simp only [GetPostsFromStore, dbCount_answered s.db hcount, hpage]

theorem length_orderByCreatedAtDesc (rows : List Post) :
    (orderByCreatedAtDesc rows).length = rows.length :=
  List.length_insertionSort _ rows

/-- A request with no offset whose limit, if any, covers the table gets every live row. -/
theorem dbFind_whole {env : Env} {db : Store} {req : GetPostsRequest}
    (hfind : env.dbFault .find = none) (hoff : req.Offset ≤ 0)
    (hlim : req.Limit ≤ 0 ∨ (db.livePosts.length : Int) ≤ req.Limit) :
    dbFind env db req none = .ok (orderByCreatedAtDesc db.livePosts) := by
  have ho : ¬ req.Offset > 0 := by omega
  simp only [dbFind, hfind, ho, if_false]
  by_cases hl : req.Limit > 0
  · have hcover : (orderByCreatedAtDesc db.livePosts).length ≤ req.Limit.toNat := by
      rw [length_orderByCreatedAtDesc]
      omega
    simp only [hl, if_true, List.take_of_length_le hcover]
  · simp only [hl, if_false]

/-- Claim C12: after a successful `LikePost` for `postId` whose cache invalidation went through,
neither the per-post entry of `postId` nor the recent-posts entry exists, and the store holds
the post with its like count incremented by one, which is the post `LikePost` returned.  The
next `GetPostById` for `postId`, with the store answering, returns that post, read from the
store.  The next `GetPosts`, with the store running both of its statements, is answered from
the store: every post it returns is a row of the store as the like left it, the post of its
answer that carries `postId` is the post with the incremented count, and that post is in the
answer of every request without offset whose limit, if any, covers the table. -/
theorem reads_after_like (tf : TimeFormat) (s s1 : State) (req : LikePostRequest) (env : Env)
    (r : PbPost)
    (hlike : LikePost tf s req env = (.ok r, s1))
    (hdelPost : env.redisFault .delPost = false) (hdelRecent : env.redisFault .delRecent = false) :
    s1.redis.post.lookup req.PostId = none ∧ s1.redis.recent = none ∧
    (∃ found : Post, s.db.firstPost req.PostId = some found ∧
      s1.db.firstPost req.PostId = some (likedRow found env) ∧
      (likedRow found env).Likes = found.Likes + 1 ∧
      r = convertToProtoPost tf (likedRow found env)) ∧
    (∀ env2 : Env, env2.dbFault .getById = none →
      (GetPostById tf s1 ⟨req.PostId⟩ env2).1 = .ok r) ∧
    (∀ (req2 : GetPostsRequest) (env2 : Env),
      env2.dbFault .count = none → env2.dbFault .find = none →
      GetPosts tf s1 req2 env2 = GetPostsFromStore tf s1 req2 env2 ∧
      ∃ posts : List PbPost, returnedPosts (GetPosts tf s1 req2 env2).1 = some posts ∧
        (∀ q ∈ posts, ∃ row ∈ s1.db.livePosts, q = convertToProtoPost tf row) ∧
        (∀ q ∈ posts, q.Id = req.PostId → q = r) ∧
        (req2.Offset ≤ 0 → (req2.Limit ≤ 0 ∨ (s1.db.livePosts.length : Int) ≤ req2.Limit) →
          r ∈ posts)) := by
  rcases LikePost_outcome tf s req env with ⟨st, h⟩ | ⟨found, _, _, hfound, h⟩
  · rw [h] at hlike; cases hlike
  · rw [h] at hlike
    injection hlike with hr hs
    injection hr with hr
    subst hr
    have hredis : s1.redis = InvalidatePostCache env s.redis req.PostId := by rw [← hs]
    have hdb : s1.db = Store.mk
        (s.db.posts.map (fun q =>
          if q.ID = found.ID ∧ q.DeletedAt = none then likedRow found env else q))
        (s.db.likes ++ [likeRecord req env]) := by rw [← hs]
    obtain ⟨hmem, hid, hlive⟩ := Store.firstPost_some hfound
    obtain ⟨hc1, hc2⟩ := InvalidatePostCache_clears env s.redis req.PostId hdelPost hdelRecent
    rw [← hredis] at hc1 hc2
    have hsaved : s1.db.firstPost req.PostId = some (likedRow found env) := by
      rw [hdb]
      exact firstPost_saved s.db.posts s.db.likes (s.db.likes ++ [likeRecord req env])
        found env req.PostId hfound
    refine ⟨hc1, hc2, ⟨found, hfound, hsaved, rfl, rfl⟩, ?_, ?_⟩
    · intro env2 hstore
      have hmiss := GetCachedPost_none env2 s1.redis req.PostId hc1
      simp only [GetPostById, hmiss, dbGetById, hstore, hsaved]
    · intro req2 env2 hcount hfind
      have hpath := GetPosts_miss tf s1 req2 env2 hc2
      refine ⟨hpath, ?_⟩
      obtain ⟨page, hpage, hans⟩ := GetPostsFromStore_answer tf s1 req2 env2 hfind hcount
      rw [hpath, hans]
      refine ⟨page.map (convertToProtoPost tf), rfl, ?_, ?_, ?_⟩
      · intro q hq
        obtain ⟨row, hrow, rfl⟩ := List.mem_map.mp hq
        exact ⟨row, dbFind_mem hpage row hrow, rfl⟩
      · intro q hq hqid
        obtain ⟨row, hrow, rfl⟩ := List.mem_map.mp hq
        have hrl := mem_livePosts.mp (dbFind_mem hpage row hrow)
        have hrid : row.ID = found.ID := by rw [hid]; exact hqid
        rw [hdb] at hrl
        rw [saved_rows_with_key s.db.posts found env row hrl.1 hrid hrl.2]
      · intro hoff hlim
        rw [dbFind_whole hfind hoff hlim] at hpage
        injection hpage with hpage
        subst hpage
        apply List.mem_map_of_mem
        apply mem_orderByCreatedAtDesc.mpr
        apply mem_livePosts.mpr
        constructor
        · rw [hdb]
          exact List.mem_map.mpr ⟨found, hmem, by simp [hlive]⟩
        · exact hlive

/-- Witness for claim C12: `olderPost`, with no like so far, is liked in `twoPostsState`, then
read by key and listed without limit: both reads carry like count 1 for it. -/
theorem reads_after_like_witness :
    (LikePost plainFormat twoPostsState ⟨uuidText 1, "u2"⟩ (Env.healthy 30 0 5)).2.redis.recent =
      none ∧
    returnedLikes (GetPostById plainFormat
      (LikePost plainFormat twoPostsState ⟨uuidText 1, "u2"⟩ (Env.healthy 30 0 5)).2
      ⟨uuidText 1⟩ (Env.healthy 31 0 0)).1 = some 1 ∧
    (returnedPosts (GetPosts plainFormat
      (LikePost plainFormat twoPostsState ⟨uuidText 1, "u2"⟩ (Env.healthy 30 0 5)).2
      ⟨0, 0⟩ (Env.healthy 31 0 0)).1).map (List.map (fun q => (q.Id, q.Likes))) =
      some [(uuidText 2, 0), (uuidText 1, 1)] := by
  have h := reads_after_like plainFormat twoPostsState
    (LikePost plainFormat twoPostsState ⟨uuidText 1, "u2"⟩ (Env.healthy 30 0 5)).2
    ⟨uuidText 1, "u2"⟩ (Env.healthy 30 0 5)
    (convertToProtoPost plainFormat (likedRow olderPost (Env.healthy 30 0 5))) rfl rfl rfl
  exact ⟨h.2.1, (congrArg returnedLikes (h.2.2.2.1 (Env.healthy 31 0 0) rfl)).trans rfl, rfl⟩

/-! ## GetPosts answered from the store -/

theorem sorted_orderByCreatedAtDesc (rows : List Post) :
    (orderByCreatedAtDesc rows).Sorted (fun a b => b.CreatedAt ≤ a.CreatedAt) := by
  haveI : IsTotal Post (fun a b => b.CreatedAt ≤ a.CreatedAt) :=
    ⟨fun a b => Nat.le_total b.CreatedAt a.CreatedAt⟩
  haveI : IsTrans Post (fun a b => b.CreatedAt ≤ a.CreatedAt) :=
    ⟨fun _ _ _ hab hbc => Nat.le_trans hbc hab⟩
  exact List.sorted_insertionSort _ rows

/-- The page the store answers with for a positive limit and a non-negative offset. -/
theorem dbFind_page {env : Env} {db : Store} {req : GetPostsRequest}
    (hfind : env.dbFault .find = none) (hlimit : 0 < req.Limit) (hoffset : 0 ≤ req.Offset) :
    dbFind env db req none =
      .ok (((orderByCreatedAtDesc db.livePosts).drop req.Offset.toNat).take req.Limit.toNat) := by
  have hl : req.Limit > 0 := hlimit
  simp only [dbFind, hfind, hl, if_true]
  by_cases ho : req.Offset > 0
  · simp only [ho, if_true]
  · have hz : req.Offset.toNat = 0 := by omega
    simp only [ho, if_false, hz, List.drop_zero]

/-- A successful `CreatePost` adds one live row and leaves the recent-posts entry alone. -/
theorem CreatePost_ok_rows {tf : TimeFormat} {s s1 : State} {req : CreatePostRequest} {env : Env}
    {r : PbPost} (h : CreatePost tf s req env = (.ok r, s1)) :
    s1.redis.recent = s.redis.recent ∧ s1.db.livePosts.length = s.db.livePosts.length + 1 := by
  rcases CreatePost_outcome tf s req env with ⟨st, h1⟩ | ⟨row, hrow, _, h1⟩
  · rw [h1] at h; cases h
  · rw [h1] at h
    injection h with _ hs
    subst hs
    have hlive : row.DeletedAt = none := by rw [hrow]; rfl
    constructor
    · show (CachePost env s.redis row).recent = s.redis.recent
      unfold CachePost
      split <;> rfl
    · show (List.filter _ (s.db.posts ++ [row])).length = _
      rw [List.filter_append]
      simp [Store.livePosts, hlive]

/-- After `k` successful creates the table holds at least `k` live rows, and the recent-posts
entry is what it was. -/
theorem createAll_rows (tf : TimeFormat) (creates : List (CreatePostRequest × Env))
    (s0 s : State) (h : createAll tf s0 creates = some s) :
    s.redis.recent = s0.redis.recent ∧
    s.db.livePosts.length = s0.db.livePosts.length + creates.length := by
  induction creates generalizing s0 with
  | nil =>
    simp only [createAll, Option.some.injEq] at h
    subst h
    exact ⟨rfl, rfl⟩
  | cons c rest ih =>
    obtain ⟨req, env⟩ := c
    simp only [createAll] at h
    cases hc : CreatePost tf s0 req env with
    | mk res s1 =>
      rw [hc] at h
      cases res with
      | error e => cases h
      | ok r =>
        obtain ⟨h1, h2⟩ := CreatePost_ok_rows hc
        obtain ⟨h3, h4⟩ := ih s1 h
        refine ⟨h3.trans h1, ?_⟩
        rw [h4, h2, List.length_cons]
        omega

/-- The total the store path answers with when both statements run. -/
theorem GetPostsFromStore_total (tf : TimeFormat) (s : State) (req : GetPostsRequest)
    (env : Env) (hfind : env.dbFault .find = none) (hcount : env.dbFault .count = none) :
    returnedTotal (GetPostsFromStore tf s req env).1 =
      some (int32 (s.db.livePosts.length : Int)) := by
  obtain ⟨page, _, hans⟩ := GetPostsFromStore_answer tf s req env hfind hcount
  rw [hans]
  simp only [returnedTotal]

/-- Claim C15 (amended): on a cache miss, with the store running both statements, for every
limit > 0 and offset >= 0 `GetPosts` returns the live posts of the store sorted by created
timestamp descending, with the first `offset` dropped and at most `limit` kept, and total
`int32 n` for the number `n` of all live posts, whatever limit and offset are; the total is `n`
itself while `n` is at most 2147483647.  In particular after `k` successful creates into a
store with no recent-posts entry, `GetPosts` with limit >= `k` and offset 0 is such a miss and
returns at least `k` posts, and total >= `k` while the count fits the 32-bit field. -/
theorem GetPosts_from_store (tf : TimeFormat) (s : State) (req : GetPostsRequest) (env : Env)
    (hmiss : ∀ cached : List Post, GetRecentPosts env s.redis = some cached → cached = [])
    (hfind : env.dbFault .find = none) (hcount : env.dbFault .count = none)
    (hlimit : 0 < req.Limit) (hoffset : 0 ≤ req.Offset) :
    (GetPosts tf s req env).1 =
      .ok { Posts := (((orderByCreatedAtDesc s.db.livePosts).drop req.Offset.toNat).take
                      req.Limit.toNat).map (convertToProtoPost tf),
            Total := int32 (s.db.livePosts.length : Int) } ∧
    (orderByCreatedAtDesc s.db.livePosts).Sorted (fun a b => b.CreatedAt ≤ a.CreatedAt) ∧
    (orderByCreatedAtDesc s.db.livePosts).Perm s.db.livePosts ∧
    (s.db.livePosts.length ≤ 2147483647 →
      returnedTotal (GetPosts tf s req env).1 = some (s.db.livePosts.length : Int)) ∧
    (∀ (s0 : State) (creates : List (CreatePostRequest × Env)),
      createAll tf s0 creates = some s → req.Offset = 0 → (creates.length : Int) ≤ req.Limit →
      s.redis.recent = s0.redis.recent ∧
      ∃ posts : List PbPost, returnedPosts (GetPosts tf s req env).1 = some posts ∧
        creates.length ≤ posts.length ∧
        (s.db.livePosts.length ≤ 2147483647 →
          ∃ total : Int, returnedTotal (GetPosts tf s req env).1 = some total ∧
            (creates.length : Int) ≤ total)) := by
  have hpath : GetPosts tf s req env = GetPostsFromStore tf s req env := by
    unfold GetPosts
    cases hrec : GetRecentPosts env s.redis with
    | none => rfl
    | some cached =>
      have := hmiss cached hrec
      subst this
      rfl
  have hpage := @dbFind_page env s.db req hfind hlimit hoffset
  have hans : (GetPostsFromStore tf s req env).1 =
      .ok { Posts := (((orderByCreatedAtDesc s.db.livePosts).drop req.Offset.toNat).take
                      req.Limit.toNat).map (convertToProtoPost tf),
            Total := int32 (s.db.livePosts.length : Int) } := by
    simp only [GetPostsFromStore, dbCount_answered s.db hcount, hpage]
  have hfits : s.db.livePosts.length ≤ 2147483647 →
      returnedTotal (GetPosts tf s req env).1 = some (s.db.livePosts.length : Int) := by
    intro hle
    rw [hpath, hans]
    simp only [returnedTotal]
    rw [int32_of_range (by omega) (by omega)]
  refine ⟨by rw [hpath, hans], sorted_orderByCreatedAtDesc _, List.perm_insertionSort _ _,
    hfits, ?_⟩
  intro s0 creates hcreated hzero hcover
  obtain ⟨hrecent, hrows⟩ := createAll_rows tf creates s0 s hcreated
  refine ⟨hrecent, ?_⟩
  rw [hpath, hans]
  refine ⟨_, rfl, ?_, ?_⟩
  · rw [List.length_map, List.length_take, List.length_drop, length_orderByCreatedAtDesc, hzero]
    simp only [Int.toNat_zero, Nat.sub_zero]
    omega
  · intro hle
    refine ⟨(s.db.livePosts.length : Int), ?_, by omega⟩
    simp only [returnedTotal]
    rw [int32_of_range (by omega) (by omega)]

/-- Witness for claim C15: the scenario of `TestPostService_GetPosts`, two creates into an empty
store and cache and a request for the first ten posts. -/
theorem GetPosts_from_store_witness :
    createAll plainFormat { db := Store.empty, redis := Cache.empty, nats := [] } testCreates =
      some afterTestCreates ∧
    afterTestCreates.db.posts.map Post.Content = ["First test post", "Second test post"] ∧
    returnedTotal (GetPosts plainFormat afterTestCreates ⟨10, 0⟩ (Env.healthy 30 0 0)).1 =
      some 2 := by
  refine ⟨rfl, rfl, ?_⟩
  exact (GetPosts_from_store plainFormat afterTestCreates ⟨10, 0⟩ (Env.healthy 30 0 0)
    (by intro cached h; cases h) rfl rfl (by decide) (by decide)).2.2.2.1 (by decide)

theorem manyPosts_live (n : Nat) : (manyPostsState n).db.livePosts.length = n := by
  have hall : (manyPostsState n).db.livePosts = manyPosts n := by
    show List.filter _ (manyPosts n) = manyPosts n
    apply List.filter_eq_self.mpr
    intro p hp
    obtain ⟨i, _, rfl⟩ := List.mem_map.mp hp
    rfl
  rw [hall, manyPosts, List.length_map, List.length_range]

/-- The total `GetPosts` answers with over a table of `n` posts and an empty cache. -/
theorem manyPosts_total (n : Nat) :
    returnedTotal (GetPosts plainFormat (manyPostsState n) ⟨1, 0⟩ (Env.healthy 0 0 0)).1 =
      some (int32 (n : Int)) := by
  rw [GetPosts_miss plainFormat (manyPostsState n) ⟨1, 0⟩ (Env.healthy 0 0 0) rfl,
    GetPostsFromStore_total plainFormat (manyPostsState n) ⟨1, 0⟩ (Env.healthy 0 0 0) rfl rfl,
    manyPosts_live]

/-- Counterexample to claim C15 as stated: over a table of 2147483648 posts and an empty
cache, `GetPosts` with limit 1 and offset 0 answers with total -2147483648, not with the
number of stored posts. -/
theorem GetPosts_total_wraps :
    (manyPostsState 2147483648).db.livePosts.length = 2147483648 ∧
    returnedTotal (GetPosts plainFormat (manyPostsState 2147483648) ⟨1, 0⟩
      (Env.healthy 0 0 0)).1 = some (-2147483648) ∧
    returnedTotal (GetPosts plainFormat (manyPostsState 2147483648) ⟨1, 0⟩
      (Env.healthy 0 0 0)).1 ≠ some 2147483648 := by
  have h := manyPosts_total 2147483648
  have hw : int32 ((2147483648 : Nat) : Int) = -2147483648 := by decide
  rw [hw] at h
  refine ⟨manyPosts_live 2147483648, h, ?_⟩
  rw [h]
  decide

/-! ## What the recent-posts entry holds -/

/-- A page is a run of the newest-first ordering of the live rows. -/
theorem dbFind_sublist {env : Env} {db : Store} {req : GetPostsRequest}
    {queryError : Option DbError} {page : List Post}
    (h : dbFind env db req queryError = .ok page) :
    page.Sublist (orderByCreatedAtDesc db.livePosts) := by
  unfold dbFind at h
  cases queryError with
  | some e => cases h
  | none =>
    cases hf : env.dbFault .find with
    | some e => simp only [hf] at h; cases h
    | none =>
      simp only [hf] at h
      injection h with h
      subst h
      by_cases hl : req.Limit > 0 <;> by_cases ho : req.Offset > 0 <;>
        simp only [hl, ho, if_true, if_false]
      · exact (List.take_sublist _ _).trans (List.drop_sublist _ _)
      · exact List.take_sublist _ _
      · exact List.drop_sublist _ _
      · exact List.Sublist.refl _

/-- The state the store path of `GetPosts` leaves: the state it got, or that state with the
recent-posts entry set to the first ten rows of a non-empty page. -/
theorem GetPostsFromStore_state (tf : TimeFormat) (s : State) (req : GetPostsRequest)
    (env : Env) :
    (GetPostsFromStore tf s req env).2 = s ∨
    ∃ page : List Post, dbFind env s.db req (dbCount env s.db).2 = .ok page ∧ page ≠ [] ∧
      env.redisFault .setRecent = false ∧
      (GetPostsFromStore tf s req env).2 =
        { s with redis := { s.redis with
            recent := some (if 10 < page.length then page.take 10 else page) } } := by
  cases hfind : dbFind env s.db req (dbCount env s.db).2 with
  | error e => left; simp only [GetPostsFromStore, hfind]
  | ok page =>
    by_cases hpos : 0 < page.length
    · by_cases hset : env.redisFault .setRecent = true
      · left
        simp only [GetPostsFromStore, hfind, hpos, if_true, CacheRecentPosts, hset]
      · right
        have hset2 : env.redisFault .setRecent = false := by simpa using hset
        refine ⟨page, rfl, List.length_pos.mp hpos, hset2, ?_⟩
        simp only [GetPostsFromStore, hfind, hpos, if_true, CacheRecentPosts, hset2,
          Bool.false_eq_true, if_false]
    · left
      simp only [GetPostsFromStore, hfind, hpos, if_false]

/-- The state `GetPosts` leaves: the state it got, or what the store path leaves. -/
theorem GetPosts_state (tf : TimeFormat) (s : State) (req : GetPostsRequest) (env : Env) :
    (GetPosts tf s req env).2 = s ∨
    (GetPosts tf s req env).2 = (GetPostsFromStore tf s req env).2 := by
  unfold GetPosts
  split
  · split
    · left; rfl
    · right; rfl
  · right; rfl

/-- The state `GetPostById` leaves: the store and the recent-posts entry are as they were. -/
theorem GetPostById_recent (tf : TimeFormat) (s : State) (req : GetPostByIdRequest) (env : Env) :
    (GetPostById tf s req env).2.redis.recent = s.redis.recent := by
  unfold GetPostById
  split
  · rfl
  · split
    · split <;> rfl
    · show (CachePost env s.redis _).recent = s.redis.recent
      unfold CachePost
      split <;> rfl

/-- Each call during which the cache invalidation goes through keeps the recent-posts entry a
list of live rows of the store. -/
theorem step_recentHoldsRows (tf : TimeFormat) (s : State) (c : Call) (env : Env)
    (hinv : invalidationWorks env) (h : s.recentHoldsRows) :
    (step tf s c env).recentHoldsRows := by
  cases c with
  | CreatePost req =>
    show (CreatePost tf s req env).2.recentHoldsRows
    rcases CreatePost_outcome tf s req env with ⟨st, h1⟩ | ⟨row, _, _, h1⟩
    · rw [h1]; exact h
    · rw [h1]
      intro cached hc
      have hrecent : (CachePost env s.redis row).recent = s.redis.recent := by
        unfold CachePost
        split <;> rfl
      obtain ⟨h2, h3, h4, h5⟩ := h cached (hrecent ▸ hc)
      refine ⟨h2, h3, ?_, h5⟩
      intro p hp
      have := mem_livePosts.mp (h4 p hp)
      exact mem_livePosts.mpr ⟨List.mem_append_left _ this.1, this.2⟩
  | GetPosts req =>
    show (GetPosts tf s req env).2.recentHoldsRows
    rcases GetPosts_state tf s req env with h1 | h1
    · rw [h1]; exact h
    · rw [h1]
      rcases GetPostsFromStore_state tf s req env with h2 | ⟨page, hpage, hne, _, h2⟩
      · rw [h2]; exact h
      · rw [h2]
        intro cached hc
        have hcached : cached = if 10 < page.length then page.take 10 else page :=
          (Option.some.inj hc).symm
        have hsub : cached.Sublist page := by
          rw [hcached]
          split
          · exact List.take_sublist _ _
          · exact List.Sublist.refl _
        refine ⟨?_, ?_, ?_, ?_⟩
        · rw [hcached]
          split
          · intro h0
            have := congrArg List.length h0
            rw [List.length_take] at this
            simp only [List.length_nil] at this
            omega
          · exact hne
        · rw [hcached]
          split
          · rw [List.length_take]; omega
          · omega
        · intro p hp
          exact dbFind_mem hpage p (hsub.subset hp)
        · exact ((sorted_orderByCreatedAtDesc _).sublist (dbFind_sublist hpage)).sublist hsub
  | GetPostById req =>
    show (GetPostById tf s req env).2.recentHoldsRows
    intro cached hc
    rw [GetPostById_recent] at hc
    obtain ⟨h2, h3, h4, h5⟩ := h cached hc
    refine ⟨h2, h3, ?_, h5⟩
    intro p hp
    have hdb : (GetPostById tf s req env).2.db = s.db := GetPostById_db tf s req env
    unfold Store.livePosts
    rw [hdb]
    exact h4 p hp
  | LikePost req =>
    show (LikePost tf s req env).2.recentHoldsRows
    rcases LikePost_outcome tf s req env with ⟨st, h1⟩ | ⟨found, _, _, _, h1⟩
    · rw [h1]; exact h
    · rw [h1]
      intro cached hc
      have hnone := (InvalidatePostCache_clears env s.redis req.PostId hinv.1 hinv.2).2
      have hc2 : (InvalidatePostCache env s.redis req.PostId).recent = some cached := hc
      rw [hnone] at hc2
      cases hc2

theorem staleListState_reachable :
    ReachableFrom plainFormat invalidationWorks
      { db := Store.empty, redis := Cache.empty, nats := [] } staleListState :=
  .call _ _ (.call _ _ (.call _ _ .start ⟨rfl, rfl⟩) ⟨rfl, rfl⟩) ⟨rfl, rfl⟩

/-- Claim C14 (amended): in every state reached from an empty store and an empty cache by calls
of `CreatePost`, `GetPosts`, `GetPostById` and `LikePost` handled one after the other, no cache
entry expiring and every cache invalidation going through, whenever `GetPosts` is answered from
the recent-posts entry, the posts it returns are live posts of the store with the field values
the store holds now, at most ten of them, in newest-first order, and the total is their
number.  They need not be the newest posts of the store. -/
theorem cache_answer_holds_stored_posts (tf : TimeFormat) (nats0 : List Event) (s : State)
    (hreach : ReachableFrom tf invalidationWorks
      { db := Store.empty, redis := Cache.empty, nats := nats0 } s)
    (req : GetPostsRequest) (env : Env) (cached : List Post)
    (hhit : GetRecentPosts env s.redis = some cached) (hne : cached ≠ []) :
    GetPosts tf s req env =
      (.ok { Posts := cached.map (convertToProtoPost tf), Total := (cached.length : Int) }, s) ∧
    cached.length ≤ 10 ∧
    (∀ p ∈ cached, p ∈ s.db.livePosts) ∧
    cached.Sorted (fun a b => b.CreatedAt ≤ a.CreatedAt) := by
  have hall : ∀ s2 : State, ReachableFrom tf invalidationWorks
      { db := Store.empty, redis := Cache.empty, nats := nats0 } s2 → s2.recentHoldsRows := by
    intro s2 h2
    induction h2 with
    | start => intro l hc; cases hc
    | call c env2 _ hadm ih => exact step_recentHoldsRows tf _ c env2 hadm ih
  have hinv : s.recentHoldsRows := hall s hreach
  have hentry : s.redis.recent = some cached := by
    unfold GetRecentPosts at hhit
    split at hhit
    · cases hhit
    · exact hhit
  obtain ⟨_, hlen, hmem, hsorted⟩ := hinv cached hentry
  have hpos : 0 < cached.length := List.length_pos.mpr hne
  have htotal : int32 ((cached.map (convertToProtoPost tf)).length : Int) = (cached.length : Int) := by
    rw [List.length_map]
    exact int32_of_range (by omega) (by omega)
  refine ⟨?_, hlen, hmem, hsorted⟩
  simp only [GetPosts, hhit, hpos, if_true, htotal]

/-- Witness for claim C14: in `staleListState` the list cached by the earlier `GetPosts` answers
the next one. -/
theorem cache_answer_holds_stored_posts_witness :
    GetPosts plainFormat staleListState ⟨10, 0⟩ (Env.healthy 30 0 0) =
      (.ok { Posts := [convertToProtoPost plainFormat olderPost], Total := 1 }, staleListState) ∧
    olderPost ∈ staleListState.db.livePosts :=
  have h := cache_answer_holds_stored_posts plainFormat [] staleListState staleListState_reachable
    ⟨10, 0⟩ (Env.healthy 30 0 0) [olderPost] rfl (by decide)
  ⟨h.1, h.2.2.1 olderPost (List.mem_singleton.mpr rfl)⟩

/-- Counterexample to claim C14 as stated: `staleListState` is reached from an empty store and
an empty cache with nothing failing; `GetPosts` is answered there from the recent-posts entry
and returns one post, `olderPost`, while the newest post of the store is `newerPost`, created
after the entry was written. -/
theorem cache_answer_misses_newer_post :
    GetRecentPosts (Env.healthy 30 0 0) staleListState.redis = some [olderPost] ∧
    returnedPosts (GetPosts plainFormat staleListState ⟨10, 0⟩ (Env.healthy 30 0 0)).1 =
      some [convertToProtoPost plainFormat olderPost] ∧
    (orderByCreatedAtDesc staleListState.db.livePosts).take 1 = [newerPost] ∧
    [convertToProtoPost plainFormat olderPost] ≠ [convertToProtoPost plainFormat newerPost] := by
  refine ⟨rfl, rfl, rfl, by decide⟩

/-! ## What a cache miss writes back -/

/-- A miss whose request has no offset and a limit, if any, of at least ten writes back the first
ten posts of the newest-first ordering of the store, when both store statements run. -/
theorem GetPostsFromStore_caches_top (tf : TimeFormat) (s : State) (req : GetPostsRequest)
    (env : Env) (hfind : env.dbFault .find = none) (hcount : env.dbFault .count = none)
    (hset : env.redisFault .setRecent = false)
    (hrows : s.db.livePosts ≠ []) (hoff : req.Offset ≤ 0)
    (hlim : req.Limit ≤ 0 ∨ 10 ≤ req.Limit) :
    (GetPostsFromStore tf s req env).2.redis.recent =
      some ((orderByCreatedAtDesc s.db.livePosts).take 10) := by
  have ho : ¬ req.Offset > 0 := by omega
  have hlenpos : 0 < (orderByCreatedAtDesc s.db.livePosts).length := by
    rw [length_orderByCreatedAtDesc]
    exact List.length_pos.mpr hrows
  by_cases hl : req.Limit > 0
  · have h10 : 10 ≤ req.Limit.toNat := by omega
    have hpage : dbFind env s.db req none =
        .ok ((orderByCreatedAtDesc s.db.livePosts).take req.Limit.toNat) := by
      simp only [dbFind, hfind, ho, hl, if_true, if_false]
    have hpos : 0 < ((orderByCreatedAtDesc s.db.livePosts).take req.Limit.toNat).length := by
      rw [List.length_take]; omega
    simp only [GetPostsFromStore, dbCount_answered s.db hcount, hpage, hpos, if_true,
      CacheRecentPosts, hset, Bool.false_eq_true, if_false]
    congr 1
    split
    · rw [List.take_take, Nat.min_eq_left h10]
    · rename_i hshort
      rw [List.length_take] at hshort
      by_cases hle : (orderByCreatedAtDesc s.db.livePosts).length ≤ 10
      · rw [List.take_of_length_le (by omega), List.take_of_length_le hle]
      · have : req.Limit.toNat = 10 := by omega
        rw [this]
  · have hpage : dbFind env s.db req none = .ok (orderByCreatedAtDesc s.db.livePosts) := by
      simp only [dbFind, hfind, ho, hl, if_false]
    simp only [GetPostsFromStore, dbCount_answered s.db hcount, hpage, hlenpos, if_true,
      CacheRecentPosts, hset, Bool.false_eq_true, if_false]
    congr 1
    split
    · rfl
    · rename_i hshort
      rw [List.take_of_length_le (by omega)]

/-- Claim C19, the code at the failing inputs: `twoPostsState` holds two posts and nothing is
cached.  A miss with limit 1 and offset 1 reads `olderPost` from the store and leaves the
recent-posts entry holding `olderPost` alone, and a miss with limit 1 and offset 0 leaves it
holding `newerPost` alone, while the first ten posts of the newest-first ordering of the store
are `newerPost`, `olderPost`. -/
theorem GetPosts_caches_the_page :
    returnedPosts (GetPosts plainFormat twoPostsState ⟨1, 1⟩ (Env.healthy 30 0 0)).1 =
      some [convertToProtoPost plainFormat olderPost] ∧
    (GetPosts plainFormat twoPostsState ⟨1, 1⟩ (Env.healthy 30 0 0)).2.redis.recent =
      some [olderPost] ∧
    (GetPosts plainFormat twoPostsState ⟨1, 0⟩ (Env.healthy 30 0 0)).2.redis.recent =
      some [newerPost] ∧
    (orderByCreatedAtDesc twoPostsState.db.livePosts).take 10 = [newerPost, olderPost] := by
  refine ⟨rfl, rfl, rfl, rfl⟩

/-! ## The gateway -/

/-- What the `/query` handler does check: a query whose lower-cased text contains `mutation` is
executed only with an `Authorization` header that starts with `Bearer ` and whose token
`validateJWT` accepts, and the user put in the context is the one `validateJWT` names. -/
theorem mutation_keyword_requires_token (r : HttpRequest) (ctx : Ctx) (req : GraphQLRequest)
    (h : handlerContext r = .ok (ctx, req))
    (hword : strings.Contains (strings.ToLower req.Query) "mutation" = true) :
    strings.HasPrefix r.Authorization "Bearer " = true ∧
    validateJWT (strings.TrimPrefix r.Authorization "Bearer ") ≠ "" ∧
    ctx.user = some (validateJWT (strings.TrimPrefix r.Authorization "Bearer ")) := by
  unfold handlerContext at h
  split at h
  · cases h
  · split at h
    · cases h
    · rename_i body hbody
      by_cases hm : strings.Contains (strings.ToLower body.Query) "mutation" = true
      · simp only [hm, if_true] at h
        split at h
        · cases h
        · rename_i hauth
          split at h
          · cases h
          · rename_i htoken
            injection h with h
            injection h with h1 h2
            subst h1
            refine ⟨?_, htoken, rfl⟩
            by_contra hp
            exact hauth (Or.inr (by simpa using hp))
      · simp only [hm, if_false] at h
        injection h with h
        injection h with h1 h2
        subst h2
        exact absurd hword hm

set_option maxRecDepth 100000 in
/-- The keyword is looked for in the text lowered by `strings.ToLower`, which turns U+0130 into
`i`: `dottedMutationCreatePost` carries no `Authorization` header and is answered 401, and no
call is sent to the service. -/
theorem dotted_capital_requires_token :
    (queryHandler plainFormat { db := Store.empty, redis := Cache.empty, nats := [] }
      dottedMutationCreatePost (Env.healthy 10 1 0)).1 =
      .errors 401 "Authorization required for mutations" ∧
    forwardedCall dottedMutationCreatePost = none := by
  refine ⟨by decide, by decide⟩

/-- A query whose lower-cased text does not contain `mutation` is executed with no user in the
context, whatever the `Authorization` header is. -/
theorem no_keyword_no_user (r : HttpRequest) (req : GraphQLRequest)
    (hmethod : r.Method = "POST") (hbody : r.Body = some req)
    (hword : strings.Contains (strings.ToLower req.Query) "mutation" = false) :
    handlerContext r = .ok ({ user := none }, req) := by
  simp [handlerContext, hmethod, hbody, hword]

set_option maxRecDepth 100000 in
/-- Claim C16, the code at the failing inputs: `anonymousCreatePost` and `anonymousLikePost`
carry no `Authorization` header and name `createPost` and `likePost` without the word
`mutation`.  The handler asks for no token and sends `CreatePost` and `LikePost` to the
service with the id `default-user`; the post and the like record are stored. -/
theorem anonymous_request_reaches_service :
    anonymousCreatePost.Authorization = "" ∧
    forwardedCall anonymousCreatePost =
      some (.CreatePost { Content := "hi", AuthorId := "default-user", ImageUrl := none }) ∧
    anonymousLikePost.Authorization = "" ∧
    forwardedCall anonymousLikePost =
      some (.LikePost { PostId := uuidText 1, UserId := "default-user" }) ∧
    (queryHandler plainFormat { db := Store.empty, redis := Cache.empty, nats := [] }
      anonymousCreatePost (Env.healthy 10 1 0)).2.db.posts.map Post.AuthorID =
      ["default-user"] ∧
    (queryHandler plainFormat helloState anonymousLikePost (Env.healthy 11 0 5)).2.db.likes.map
      (fun l => (l.PostID, l.UserID)) = [(uuidText 1, "default-user")] := by
  refine ⟨rfl, by decide, rfl, by decide, by decide, by decide⟩

set_option maxRecDepth 100000 in
/-- The inline form of an argument: whatever follows it, a query that starts with
`mutation { createPost(content: "` gives the content of one blank, the text between `content:`
and the opening double quote. -/
theorem inline_content_is_a_blank (tail : List Char) :
    argumentOf (String.mk ("mutation \x7b createPost(content: \x22".data ++ tail)) [] "content" =
      " " := by
  cases tail with
  | nil => rfl
  | cons c rest => rfl

set_option maxRecDepth 100000 in
/-- Claim C17, the code at the failing input: for the "Create Post" command of the playground
page, whose query carries `content: "Hello Muze!"` inline and no variables, the handler sends
`CreatePost` to the service with a content of one blank, not `Hello Muze!`, and that content
is what the service stores. -/
theorem playground_create_sends_a_blank :
    forwardedCall playgroundCreatePost =
      some (.CreatePost { Content := " ", AuthorId := "test-user", ImageUrl := none }) ∧
    (queryHandler plainFormat { db := Store.empty, redis := Cache.empty, nats := [] }
      playgroundCreatePost (Env.healthy 10 1 0)).2.db.posts.map Post.Content = [" "] ∧
    (" " : String) ≠ "Hello Muze!" := by
  refine ⟨by decide, by decide, by decide⟩

end Muze
